import Mathlib

/-!
Shallow embedding of the OSM XML input format of libosmium
(`include/osmium/io/detail/xml_input_format.hpp`) and the parts of the
object builders (`include/osmium/builder/osm_object_builder.hpp`) that the
XML parser drives.  The parser is a SAX-style state machine; we model it as
a step function over an explicit state, driven by start-element,
end-element and character-data events.  Byte layout of entities in the
buffer is out of scope (the spec treats scalar layout as opaque setter
calls); entity content is modelled structurally, and the byte-counting
flush policy of `flush_buffer` is modelled separately on an abstract
buffer that carries its `committed` byte counter.
-/

namespace OsmiumXml

/-- Model of `osmium::item_type` (only the constructors the XML parser can
produce are needed). -/
inductive item_type
  | undefined
  | node
  | way
  | relation
  | changeset
deriving DecidableEq, Repr

/-- Modelled from the spec: `char_to_item_type` (osmium/osm/item_type.hpp is
not part of the sources given).  The spec documents relation member types
`type=n|w|r`; characters other than `n`, `w`, `r` do not map to one of the
three member kinds and are modelled as `undefined`. -/
def char_to_item_type (c : Char) : item_type :=
  if c = 'n' then item_type.node
  else if c = 'w' then item_type.way
  else if c = 'r' then item_type.relation
  else item_type.undefined

/-- First character of a string; a C string's `value[0]` is the NUL byte
when the string is empty. -/
def firstChar (s : String) : Char :=
  s.toList.headD (Char.ofNat 0)

/-- Value of a digit string read in base 10. -/
def digitsToNat (ds : List Char) : Nat :=
  ds.foldl (fun n c => 10 * n + (c.toNat - Char.toNat '0')) 0

/-- Modelled from the spec: `string_to_object_id`
(osmium/osm/types_from_string.hpp is not part of the sources given).  It
has `atoll` semantics: optional sign followed by leading decimal digits;
parsing stops at the first non-digit and yields 0 when there are no
digits (so a missing or unparseable `ref` reads as 0, which the spec
calls a "missing/zero ref"). -/
def string_to_object_id (s : String) : Int :=
  let cs := s.toList
  match cs with
  | '-' :: rest => - (digitsToNat (rest.takeWhile Char.isDigit) : Int)
  | '+' :: rest => (digitsToNat (rest.takeWhile Char.isDigit) : Int)
  | _ => (digitsToNat (cs.takeWhile Char.isDigit) : Int)

/-- Modelled from the spec: `string_to_user_id` (same source file as
`string_to_object_id`, not given); `uid` is a decimal user id. -/
def string_to_user_id (s : String) : Int :=
  string_to_object_id s

/-- Modelled from the spec: numeric extraction of a `double` from an input
string stream whose locale has decimal separator `sep` (the C++ standard
library's `num_get`, external to the given sources).  The C-locale grammar
is: optional skipped whitespace, optional sign, integer digits, optionally
the separator and fraction digits, optionally an exponent; extraction
stops at the first character that cannot extend the number and fails
(`none`) when no mantissa digit was read.  Real numbers are modelled as
rationals; every value the claims exercise is exactly representable. -/
def istreamExtractDouble (sep : Char) (s : String) : Option Rat :=
  let cs := s.toList.dropWhile (fun c => c = ' ' ∨ c = '\t' ∨ c = '\n' ∨ c = '\r')
  let signed : Bool × List Char :=
    match cs with
    | '-' :: rest => (true, rest)
    | '+' :: rest => (false, rest)
    | _ => (false, cs)
  let neg := signed.1
  let intDigits := signed.2.takeWhile Char.isDigit
  let afterInt := signed.2.dropWhile Char.isDigit
  let fracPart : List Char × List Char :=
    match afterInt with
    | c :: rest =>
        if c = sep then (rest.takeWhile Char.isDigit, rest.dropWhile Char.isDigit)
        else ([], afterInt)
    | [] => ([], [])
  let fracDigits := fracPart.1
  let afterFrac := fracPart.2
  if intDigits = [] ∧ fracDigits = [] then
    none
  else
    let mant : Rat := (digitsToNat intDigits : Rat) +
      (digitsToNat fracDigits : Rat) / ((10 : Rat) ^ fracDigits.length)
    let expo : Option Int :=
      match afterFrac with
      | c :: rest =>
          if c = 'e' ∨ c = 'E' then
            let esigned : Bool × List Char :=
              match rest with
              | '-' :: r => (true, r)
              | '+' :: r => (false, r)
              | _ => (false, rest)
            let eds := esigned.2.takeWhile Char.isDigit
            if eds = [] then none
            else some (if esigned.1 then -(digitsToNat eds : Int) else (digitsToNat eds : Int))
          else some 0
      | [] => some 0
    match expo with
    | none => none
    | some e =>
        let v := mant * (10 : Rat) ^ e
        some (if neg then -v else v)

/-- Translation of `atof_helper` (xml_input_format.hpp lines 134-140): the
value is extracted through an `istringstream` imbued with the `"C"` locale,
so the decimal separator is `'.'` regardless of the ambient locale's
separator `ambientSep`; a failed extraction leaves the initial value 0. -/
def atof_helper (ambientSep : Char) (str : String) : Rat :=
  (istreamExtractDouble '.' str).getD 0

/-- Model of `osmium::Location`: longitude and latitude, each possibly
unset (the default Location is the undefined sentinel). -/
structure Location where
  lon : Option Rat := none
  lat : Option Rat := none
deriving DecidableEq, Repr

/-- Modelled from the spec: `Location::operator bool` (osmium/osm/location.hpp
is not given); a Location that had a coordinate set is no longer the
undefined sentinel. -/
def Location.isSet (l : Location) : Bool :=
  l.lon.isSome || l.lat.isSome

/-- Model of `osmium::NodeRef`: an object id and a Location (default:
ref 0, undefined location). -/
structure NodeRef where
  ref : Int := 0
  location : Location := {}
deriving DecidableEq, Repr

/-- Model of the fixed-size `osmium::RelationMember` record written by
`RelationMemberListBuilder::add_member`: type, ref, role size (set by
`add_role` to the role length including the NUL terminator) and the
`has_full_member` flag (set from whether a full member object pointer was
supplied). -/
structure RelationMember where
  type : item_type
  ref : Int
  role_size : Nat
  has_full_member : Bool
deriving DecidableEq, Repr

/-- One entry of a relation member list: the member record, its role
string, and the embedded full-member item when one was supplied
(`add_item(full_member)`); the embedded item itself is opaque here since
the XML parser never supplies one. -/
structure MemberEntry where
  member : RelationMember
  role : String
  embedded : Option Unit
deriving DecidableEq, Repr

/-- Translation of `RelationMemberListBuilder::add_member`
(osm_object_builder.hpp lines 193-201): appends a member record whose
`has_full_member` flag is `full_member != nullptr`, then the role, then,
if a full member was supplied, the embedded item. -/
def add_member (members : List MemberEntry) (type : item_type) (ref : Int)
    (role : String) (full_member : Option Unit := none) : List MemberEntry :=
  members ++ [{ member := { type := type, ref := ref,
                            role_size := role.length + 1,
                            has_full_member := full_member.isSome },
                role := role,
                embedded := full_member }]

/-- Model of one changeset discussion comment; `text` is `none` until
`add_comment_text` supplies the payload. -/
structure Comment where
  date : String
  uid : Int
  user : String
  text : Option String
deriving DecidableEq, Repr

/-- Structural model of one OSM entity as the builders assemble it in the
buffer.  The byte layout of the scalar header is out of scope (the spec
treats scalar fields as opaque setter calls), so scalar attributes other
than the visible flag are recorded as the sequence of setter calls in
`scalars`.  A freshly constructed object is visible (spec scenarios S1 and
S4: entities without a `visible` attribute outside a delete section are
emitted with `visible == true`). -/
structure Entity where
  kind : item_type
  visible : Bool := true
  location : Location := {}
  user : String := ""
  scalars : List (String × String) := []
  tags : List (String × String) := []
  nodeRefs : List NodeRef := []
  members : List MemberEntry := []
  comments : List Comment := []
  bounds_ext : List Location := []
deriving DecidableEq, Repr

/-- Modelled from the spec: `OSMObject::set_attribute` (osmium/osm/object.hpp
is not part of the sources given): recognized attribute names are
dispatched to typed setters; `visible` is set from the strings `"true"` /
`"false"` (other values are left to the setter and modelled as no change);
the remaining typed setters (`id`, `version`, `changeset`, `timestamp`,
`uid`) and the generic setter are opaque and recorded in `scalars`. -/
def set_attribute (obj : Entity) (name value : String) : Entity :=
  if name = "visible" then
    if value = "true" then { obj with visible := true }
    else if value = "false" then { obj with visible := false }
    else obj
  else { obj with scalars := obj.scalars ++ [(name, value)] }

/-- Accumulator of the attribute scan in `init_object`. -/
structure ObjScan where
  location : Location := {}
  user : String := ""
  obj : Entity
deriving DecidableEq, Repr

/-- One attribute of the `init_object` scan: `lon`/`lat` build a Location
through `atof_helper`, `user` is captured, everything else goes to
`set_attribute`. -/
def obj_scan_step (acc : ObjScan) (a : String × String) : ObjScan :=
  if a.1 = "lon" then { acc with location := { acc.location with lon := some (atof_helper '.' a.2) } }
  else if a.1 = "lat" then { acc with location := { acc.location with lat := some (atof_helper '.' a.2) } }
  else if a.1 = "user" then { acc with user := a.2 }
  else { acc with obj := set_attribute acc.obj a.1 a.2 }

/-- Translation of `XMLParser::init_object` (xml_input_format.hpp lines
258-284): if the parser is in the delete section the visible flag is set
false first; then the attributes are scanned in order through
`obj_scan_step`; finally, if a location was seen and the object is a
node, the location is installed.  Returns the object and the captured user
string (the caller passes it to `add_user`). -/
def init_object (in_delete_section : Bool) (obj0 : Entity)
    (attrs : List (String × String)) : Entity × String :=
  let obj1 := if in_delete_section then { obj0 with visible := false } else obj0
  let st := attrs.foldl obj_scan_step { obj := obj1 }
  let obj2 := if st.location.isSet ∧ st.obj.kind = item_type.node
              then { st.obj with location := st.location } else st.obj
  (obj2, st.user)

/-- Modelled from the spec: `Box::extend` (osmium/osm/box.hpp is not part
of the sources given); extending with a defined Location records it,
extending with the undefined sentinel changes nothing.  A box is modelled
as the list of defined locations it was extended with. -/
def box_extend (b : List Location) (l : Location) : List Location :=
  if l.isSet then b ++ [l] else b

/-- Accumulator of the attribute scan in `init_changeset`. -/
structure CsScan where
  min : Location := {}
  max : Location := {}
  user : String := ""
  obj : Entity
deriving DecidableEq, Repr

/-- Translation of `XMLParser::init_changeset` (xml_input_format.hpp lines
286-312): scans the attributes (`min_lon`/`min_lat`/`max_lon`/`max_lat`
build two Locations through `atof_helper`, `user` is captured, everything
else goes to `set_attribute`), then extends the changeset bounds with the
two locations and sets the user. -/
def init_changeset (cs0 : Entity) (attrs : List (String × String)) : Entity :=
  let st := attrs.foldl
    (fun (acc : CsScan) a =>
      if a.1 = "min_lon" then { acc with min := { acc.min with lon := some (atof_helper '.' a.2) } }
      else if a.1 = "min_lat" then { acc with min := { acc.min with lat := some (atof_helper '.' a.2) } }
      else if a.1 = "max_lon" then { acc with max := { acc.max with lon := some (atof_helper '.' a.2) } }
      else if a.1 = "max_lat" then { acc with max := { acc.max with lat := some (atof_helper '.' a.2) } }
      else if a.1 = "user" then { acc with user := a.2 }
      else { acc with obj := set_attribute acc.obj a.1 a.2 })
    { obj := cs0 }
  let cs1 := { st.obj with bounds_ext := box_extend (box_extend st.obj.bounds_ext st.min) st.max }
  { cs1 with user := st.user }

/-- Result of the attribute scan for a `tag` element in `get_tag`
(xml_input_format.hpp lines 314-323): `k` and `v` start as empty strings
and each attribute whose name is exactly `"k"` (resp. `"v"`) overwrites
the key (resp. the value). -/
def tag_scan_step (kv : String × String) (a : String × String) : String × String :=
  if a.1 = "k" then (a.2, kv.2)
  else if a.1 = "v" then (kv.1, a.2)
  else kv

/-- Scan of the attributes of a `tag` element through `tag_scan_step`. -/
def tag_attrs (attrs : List (String × String)) : String × String :=
  attrs.foldl tag_scan_step ("", "")

/-- Accumulator of the attribute scan for a relation `member` element
(xml_input_format.hpp lines 461-472): type defaults to undefined, ref to
0, role to the empty string. -/
structure MemberScan where
  type : item_type := item_type.undefined
  ref : Int := 0
  role : String := ""
deriving DecidableEq, Repr

/-- Attribute scan for a relation `member` element: `type` maps the first
character of the value through `char_to_item_type`, `ref` parses through
`string_to_object_id`, `role` is taken verbatim. -/
def member_attrs (attrs : List (String × String)) : MemberScan :=
  attrs.foldl
    (fun (acc : MemberScan) a =>
      if a.1 = "type" then { acc with type := char_to_item_type (firstChar a.2) }
      else if a.1 = "ref" then { acc with ref := string_to_object_id a.2 }
      else if a.1 = "role" then { acc with role := a.2 }
      else acc)
    {}

/-- Attribute scan for an `nd` element inside a way (xml_input_format.hpp
lines 435-444): builds a NodeRef from `ref`, `lon`, `lat`. -/
def nd_attrs (attrs : List (String × String)) : NodeRef :=
  attrs.foldl
    (fun (nr : NodeRef) a =>
      if a.1 = "ref" then { nr with ref := string_to_object_id a.2 }
      else if a.1 = "lon" then { nr with location := { nr.location with lon := some (atof_helper '.' a.2) } }
      else if a.1 = "lat" then { nr with location := { nr.location with lat := some (atof_helper '.' a.2) } }
      else nr)
    {}

/-- Attribute scan for a discussion `comment` element (xml_input_format.hpp
lines 502-513): `date` is kept as the raw timestamp string (the Timestamp
parse is opaque), `uid` parses through `string_to_user_id`, `user` is
taken verbatim; the comment text arrives later. -/
def comment_attrs (attrs : List (String × String)) : Comment :=
  attrs.foldl
    (fun (c : Comment) a =>
      if a.1 = "date" then { c with date := a.2 }
      else if a.1 = "uid" then { c with uid := string_to_user_id a.2 }
      else if a.1 = "user" then { c with user := a.2 }
      else c)
    { date := "", uid := 0, user := "", text := none }

/-- Attribute scan for a `bounds` element (xml_input_format.hpp lines
398-410): builds the min and max Locations. -/
def bounds_attrs (attrs : List (String × String)) : Location × Location :=
  attrs.foldl
    (fun (mm : Location × Location) a =>
      if a.1 = "minlon" then ({ mm.1 with lon := some (atof_helper '.' a.2) }, mm.2)
      else if a.1 = "minlat" then ({ mm.1 with lat := some (atof_helper '.' a.2) }, mm.2)
      else if a.1 = "maxlon" then (mm.1, { mm.2 with lon := some (atof_helper '.' a.2) })
      else if a.1 = "maxlat" then (mm.1, { mm.2 with lat := some (atof_helper '.' a.2) })
      else mm)
    ({}, {})

/-- Model of `enum class context` of `XMLParser` (xml_input_format.hpp
lines 146-161). -/
inductive Context
  | root
  | top
  | node
  | way
  | relation
  | changeset
  | discussion
  | comment
  | comment_text
  | ignored_node
  | ignored_way
  | ignored_relation
  | ignored_changeset
  | in_object
deriving DecidableEq, Repr

/-- Kinds of builders the parser holds through `unique_ptr` members:
the four sublist builders and the entity builders. -/
inductive BuilderKind
  | tagList
  | wayNodeList
  | relationMemberList
  | changesetDiscussion
  | entity (k : item_type)
deriving DecidableEq, Repr

/-- Builder lifetime events, in execution order: `create` when a builder
is constructed, `finalize` when it is destroyed (its destructor writes the
trailing padding and back-patches the size prefix). -/
inductive BuilderEvent
  | create (k : BuilderKind)
  | finalize (k : BuilderKind)
deriving DecidableEq, Repr

/-- Model of `osmium::io::Header` as far as the XML parser touches it:
the `version` and `generator` values (both empty by default), the
multiple-object-versions flag set for `osmChange`, and the boxes added by
`bounds` elements. -/
structure Header where
  version : String := ""
  generator : String := ""
  multiple_object_versions : Bool := false
  boxes : List (List Location) := []
deriving DecidableEq, Repr

/-- Model of `osmium::osm_entity_bits::type` restricted to the four kinds
the read filter distinguishes. -/
structure EntityBits where
  node : Bool
  way : Bool
  relation : Bool
  changeset : Bool
deriving DecidableEq, Repr

/-- Read filter containing every entity kind. -/
def allBits : EntityBits := ⟨true, true, true, true⟩

/-- Dynamic state of `XMLParser`: the context pair, the delete-section
flag, the header and the one-shot header promise, the comment-text
accumulator, the five entity builder slots (`none` models a null
`unique_ptr`; a live slot carries the entity as built so far), the
liveness of the three sublist builders and the discussion builder, the
sequence of committed entities (`output` concatenates the committed
prefix of the current buffer after the buffers already moved to the
output queue; `flush_buffer` does not change this sequence and its byte
threshold is modelled separately), and the builder lifetime log. -/
structure ParserState where
  context : Context
  last_context : Context
  in_delete_section : Bool
  header : Header
  header_done : Bool
  comment_text : String
  node_builder : Option Entity
  way_builder : Option Entity
  relation_builder : Option Entity
  changeset_builder : Option Entity
  tl_live : Bool
  wnl_live : Bool
  rml_live : Bool
  disc_live : Bool
  output : List Entity
  log : List BuilderEvent
deriving DecidableEq, Repr

/-- The state of the freshly constructed parser (xml_input_format.hpp
lines 644-662). -/
def init_state : ParserState :=
  { context := Context.root
    last_context := Context.root
    in_delete_section := false
    header := {}
    header_done := false
    comment_text := ""
    node_builder := none
    way_builder := none
    relation_builder := none
    changeset_builder := none
    tl_live := false
    wnl_live := false
    rml_live := false
    disc_live := false
    output := []
    log := [] }

/-- Model of `m_tl_builder.reset()`: destroying a live tag list builder
finalizes it; resetting a null pointer does nothing. -/
def resetTl (s : ParserState) : ParserState :=
  if s.tl_live then
    { s with tl_live := false, log := s.log ++ [BuilderEvent.finalize BuilderKind.tagList] }
  else s

/-- Model of `m_wnl_builder.reset()`. -/
def resetWnl (s : ParserState) : ParserState :=
  if s.wnl_live then
    { s with wnl_live := false, log := s.log ++ [BuilderEvent.finalize BuilderKind.wayNodeList] }
  else s

/-- Model of `m_rml_builder.reset()`. -/
def resetRml (s : ParserState) : ParserState :=
  if s.rml_live then
    { s with rml_live := false, log := s.log ++ [BuilderEvent.finalize BuilderKind.relationMemberList] }
  else s

/-- Model of `m_changeset_discussion_builder.reset()`. -/
def resetDisc (s : ParserState) : ParserState :=
  if s.disc_live then
    { s with disc_live := false, log := s.log ++ [BuilderEvent.finalize BuilderKind.changesetDiscussion] }
  else s

/-- Model of `if (!m_tl_builder) m_tl_builder = new TagListBuilder(...)`. -/
def ensureTl (s : ParserState) : ParserState :=
  if s.tl_live then s
  else { s with tl_live := true, log := s.log ++ [BuilderEvent.create BuilderKind.tagList] }

/-- Model of `if (!m_wnl_builder) m_wnl_builder = new WayNodeListBuilder(...)`. -/
def ensureWnl (s : ParserState) : ParserState :=
  if s.wnl_live then s
  else { s with wnl_live := true, log := s.log ++ [BuilderEvent.create BuilderKind.wayNodeList] }

/-- Model of `if (!m_rml_builder) m_rml_builder = new RelationMemberListBuilder(...)`. -/
def ensureRml (s : ParserState) : ParserState :=
  if s.rml_live then s
  else { s with rml_live := true, log := s.log ++ [BuilderEvent.create BuilderKind.relationMemberList] }

/-- Model of the conditional creation of the changeset discussion builder. -/
def ensureDisc (s : ParserState) : ParserState :=
  if s.disc_live then s
  else { s with disc_live := true, log := s.log ++ [BuilderEvent.create BuilderKind.changesetDiscussion] }

/-- Apply an update to the entity under construction in the builder slot
of kind `k` (a null slot would be undefined behaviour at the C++ call
sites that dereference it and is modelled as no change). -/
def mapSlot (s : ParserState) (k : item_type) (f : Entity → Entity) : ParserState :=
  match k with
  | item_type.node => { s with node_builder := s.node_builder.map f }
  | item_type.way => { s with way_builder := s.way_builder.map f }
  | item_type.relation => { s with relation_builder := s.relation_builder.map f }
  | item_type.changeset => { s with changeset_builder := s.changeset_builder.map f }
  | item_type.undefined => s

/-- Translation of `XMLParser::get_tag` (xml_input_format.hpp lines
314-328): scan the attributes for `k` and `v` (each defaulting to the
empty string), ensure a tag list builder exists, and append the tag.  The
`parent` argument mirrors the builder pointer passed at each call site;
the tag content lands in that entity.  `get_tag` raises no error. -/
def get_tag (parent : item_type) (s : ParserState)
    (attrs : List (String × String)) : ParserState :=
  let kv := tag_attrs attrs
  let s := ensureTl s
  mapSlot s parent (fun e => { e with tags := e.tags ++ [kv] })

/-- Model of `mark_header_as_done` / `set_header_value`: the header
promise is one-shot, later calls are no-ops (spec §4.5, header
completion). -/
def mark_header_as_done (s : ParserState) : ParserState :=
  if s.header_done then s else { s with header_done := true }

/-- Modelled from the spec: `ChangesetDiscussionBuilder::add_comment`
(the discussion builder class is not part of the given sources) writes a
comment header into the discussion section of the changeset item. -/
def add_comment (s : ParserState) (c : Comment) : ParserState :=
  { s with changeset_builder :=
      s.changeset_builder.map (fun e => { e with comments := e.comments ++ [c] }) }

/-- Set the text of the last comment in a discussion. -/
def set_last_text : List Comment → String → List Comment
  | [], _ => []
  | [c], t => [{ c with text := some t }]
  | c :: rest, t => c :: set_last_text rest t

/-- Modelled from the spec: `ChangesetDiscussionBuilder::add_comment_text`
appends the text payload of the comment whose header was last written. -/
def add_comment_text (s : ParserState) (text : String) : ParserState :=
  { s with changeset_builder :=
      s.changeset_builder.map (fun e => { e with comments := set_last_text e.comments text }) }

/-- Read the builder slot of entity kind `k`. -/
def getSlot (s : ParserState) : item_type → Option Entity
  | item_type.node => s.node_builder
  | item_type.way => s.way_builder
  | item_type.relation => s.relation_builder
  | item_type.changeset => s.changeset_builder
  | item_type.undefined => none

/-- Clear the builder slot of entity kind `k`. -/
def clearSlot (s : ParserState) : item_type → ParserState
  | item_type.node => { s with node_builder := none }
  | item_type.way => { s with way_builder := none }
  | item_type.relation => { s with relation_builder := none }
  | item_type.changeset => { s with changeset_builder := none }
  | item_type.undefined => s

/-- Common tail of the entity cases of `end_element`: destroy the entity
builder (the sublist builders were already reset by the caller), commit
the buffer — the finished entity joins the committed sequence — and
return to TOP.  The subsequent `flush_buffer()` call moves full buffers
to the output queue but never changes the committed entity sequence; its
byte-counting policy is modelled separately on `MemoryBuffer`. -/
def close_entity (s : ParserState) (k : item_type) : ParserState :=
  match getSlot s k with
  | some ent =>
      let s := clearSlot s k
      { s with log := s.log ++ [BuilderEvent.finalize (BuilderKind.entity k)],
               output := s.output ++ [ent],
               context := Context.top }
  | none => { s with context := Context.top }

/-- Errors of the XML parser that the claims are about: `format_version_error`
(xml_input_format.hpp lines 109-123; the default constructor carries the
empty version string) and `xml_error` with a message. -/
inductive XmlErr
  | formatVersion (version : String)
  | xml_error (message : String)
deriving DecidableEq, Repr

/-- The attribute scan of the root case of `start_element`
(xml_input_format.hpp lines 341-350): each `version` attribute is stored
in the header and then checked against "0.6", throwing
`format_version_error(value)` if it differs; `generator` is stored;
other attributes are skipped. -/
def root_scan_step (h : Header) (a : String × String) : Except XmlErr Header :=
  if a.1 = "version" then
    let h1 := { h with version := a.2 }
    if a.2 ≠ "0.6" then Except.error (XmlErr.formatVersion a.2)
    else Except.ok h1
  else if a.1 = "generator" then Except.ok { h with generator := a.2 }
  else Except.ok h

/-- Scan of the attributes of the root element through `root_scan_step`. -/
def scan_root_attrs (h : Header) (attrs : List (String × String)) :
    Except XmlErr Header :=
  attrs.foldlM root_scan_step h

/-- Store an entity into a builder slot. -/
def mapSlotSet (s : ParserState) (k : item_type) (ent : Entity) : ParserState :=
  match k with
  | item_type.node => { s with node_builder := some ent }
  | item_type.way => { s with way_builder := some ent }
  | item_type.relation => { s with relation_builder := some ent }
  | item_type.changeset => { s with changeset_builder := some ent }
  | item_type.undefined => s

/-- Create an entity builder in slot `k` (the C++ `unique_ptr` assignment
constructs the new builder, then destroys the previous one — which is
never live at the call sites). -/
def newEntityBuilder (s : ParserState) (k : item_type) (ent : Entity) : ParserState :=
  let s1 := mapSlotSet s k ent
  { s1 with log := s.log ++ [BuilderEvent.create (BuilderKind.entity k)] ++
      (if (getSlot s k).isSome then [BuilderEvent.finalize (BuilderKind.entity k)] else []) }

/-- Translation of `XMLParser::start_element` (xml_input_format.hpp lines
334-536).  Asserts (`assert(...)` statements, compiled out in release
builds) are modelled as no-ops; the `in_object` case, which the code
marks `assert(false)`, likewise leaves the state unchanged. -/
def start_element (rt : EntityBits) (s : ParserState) (element : String)
    (attrs : List (String × String)) : Except XmlErr ParserState :=
  match s.context with
  | Context.root =>
      if element = "osm" ∨ element = "osmChange" then
        let h0 := if element = "osmChange"
                  then { s.header with multiple_object_versions := true }
                  else s.header
        match scan_root_attrs h0 attrs with
        | Except.error e => Except.error e
        | Except.ok h1 =>
            if h1.version = "" then Except.error (XmlErr.formatVersion "")
            else Except.ok { s with header := h1, context := Context.top }
      else Except.error (XmlErr.xml_error ("Unknown top-level element: " ++ element))
  | Context.top =>
      if element = "node" then
        let s := mark_header_as_done s
        if rt.node then
          let io := init_object s.in_delete_section { kind := item_type.node } attrs
          Except.ok { newEntityBuilder s item_type.node { io.1 with user := io.2 } with
                      context := Context.node }
        else Except.ok { s with context := Context.ignored_node }
      else if element = "way" then
        let s := mark_header_as_done s
        if rt.way then
          let io := init_object s.in_delete_section { kind := item_type.way } attrs
          Except.ok { newEntityBuilder s item_type.way { io.1 with user := io.2 } with
                      context := Context.way }
        else Except.ok { s with context := Context.ignored_way }
      else if element = "relation" then
        let s := mark_header_as_done s
        if rt.relation then
          let io := init_object s.in_delete_section { kind := item_type.relation } attrs
          Except.ok { newEntityBuilder s item_type.relation { io.1 with user := io.2 } with
                      context := Context.relation }
        else Except.ok { s with context := Context.ignored_relation }
      else if element = "changeset" then
        let s := mark_header_as_done s
        if rt.changeset then
          Except.ok { newEntityBuilder s item_type.changeset
                        (init_changeset { kind := item_type.changeset } attrs) with
                      context := Context.changeset }
        else Except.ok { s with context := Context.ignored_changeset }
      else if element = "bounds" then
        let mm := bounds_attrs attrs
        Except.ok { s with header := { s.header with
          boxes := s.header.boxes ++ [box_extend (box_extend [] mm.1) mm.2] } }
      else if element = "delete" then
        Except.ok { s with in_delete_section := true }
      else Except.ok s
  | Context.node =>
      let s := { s with last_context := Context.node, context := Context.in_object }
      if element = "tag" then Except.ok (get_tag item_type.node s attrs)
      else Except.ok s
  | Context.way =>
      let s := { s with last_context := Context.way, context := Context.in_object }
      if element = "nd" then
        let s := resetTl s
        let s := ensureWnl s
        let nr := nd_attrs attrs
        Except.ok (mapSlot s item_type.way (fun e => { e with nodeRefs := e.nodeRefs ++ [nr] }))
      else if element = "tag" then
        let s := resetWnl s
        Except.ok (get_tag item_type.way s attrs)
      else Except.ok s
  | Context.relation =>
      let s := { s with last_context := Context.relation, context := Context.in_object }
      if element = "member" then
        let s := resetTl s
        let s := ensureRml s
        let m := member_attrs attrs
        if m.type ≠ item_type.node ∧ m.type ≠ item_type.way ∧ m.type ≠ item_type.relation then
          Except.error (XmlErr.xml_error "Unknown type on relation member")
        else if m.ref = 0 then
          Except.error (XmlErr.xml_error "Missing ref on relation member")
        else
          Except.ok (mapSlot s item_type.relation
            (fun e => { e with members := add_member e.members m.type m.ref m.role }))
      else if element = "tag" then
        let s := resetRml s
        Except.ok (get_tag item_type.relation s attrs)
      else Except.ok s
  | Context.changeset =>
      let s := { s with last_context := Context.changeset }
      if element = "discussion" then
        let s := { s with context := Context.discussion }
        let s := resetTl s
        Except.ok (ensureDisc s)
      else if element = "tag" then
        let s := { s with context := Context.in_object }
        let s := resetDisc s
        Except.ok (get_tag item_type.changeset s attrs)
      else Except.ok s
  | Context.discussion =>
      if element = "comment" then
        Except.ok (add_comment { s with context := Context.comment } (comment_attrs attrs))
      else Except.ok s
  | Context.comment =>
      if element = "text" then Except.ok { s with context := Context.comment_text }
      else Except.ok s
  | Context.comment_text => Except.ok s
  | Context.ignored_node => Except.ok s
  | Context.ignored_way => Except.ok s
  | Context.ignored_relation => Except.ok s
  | Context.ignored_changeset => Except.ok s
  | Context.in_object => Except.ok s

/-- Translation of `XMLParser::end_element` (xml_input_format.hpp lines
538-623).  Asserts are modelled as no-ops: in particular the entity cases
close the entity on any element name, and the root case does nothing. -/
def end_element (s : ParserState) (element : String) : Except XmlErr ParserState :=
  match s.context with
  | Context.root => Except.ok s
  | Context.top =>
      if element = "osm" ∨ element = "osmChange" then
        Except.ok { mark_header_as_done s with context := Context.root }
      else if element = "delete" then
        Except.ok { s with in_delete_section := false }
      else Except.ok s
  | Context.node =>
      let s := resetTl s
      Except.ok (close_entity s item_type.node)
  | Context.way =>
      let s := resetTl s
      let s := resetWnl s
      Except.ok (close_entity s item_type.way)
  | Context.relation =>
      let s := resetTl s
      let s := resetRml s
      Except.ok (close_entity s item_type.relation)
  | Context.changeset =>
      let s := resetTl s
      let s := resetDisc s
      Except.ok (close_entity s item_type.changeset)
  | Context.discussion => Except.ok { s with context := Context.changeset }
  | Context.comment => Except.ok { s with context := Context.discussion }
  | Context.comment_text =>
      Except.ok (add_comment_text { s with context := Context.comment } s.comment_text)
  | Context.in_object => Except.ok { s with context := s.last_context }
  | Context.ignored_node =>
      if element = "node" then Except.ok { s with context := Context.top } else Except.ok s
  | Context.ignored_way =>
      if element = "way" then Except.ok { s with context := Context.top } else Except.ok s
  | Context.ignored_relation =>
      if element = "relation" then Except.ok { s with context := Context.top } else Except.ok s
  | Context.ignored_changeset =>
      if element = "changeset" then Except.ok { s with context := Context.top } else Except.ok s

/-- Translation of `XMLParser::characters` (xml_input_format.hpp lines
625-631): in COMMENT_TEXT the data is appended to the accumulator,
anywhere else the accumulator is reset to empty. -/
def characters (s : ParserState) (text : String) : ParserState :=
  if s.context = Context.comment_text then
    { s with comment_text := s.comment_text ++ text }
  else { s with comment_text := "" }

/-- SAX events delivered by the Expat wrapper. -/
inductive Event
  | startEl (name : String) (attrs : List (String × String))
  | endEl (name : String)
  | chars (text : String)
deriving DecidableEq, Repr

/-- One SAX event dispatched to the parser. -/
def step (rt : EntityBits) (s : ParserState) : Event → Except XmlErr ParserState
  | Event.startEl name attrs => start_element rt s name attrs
  | Event.endEl name => end_element s name
  | Event.chars text => Except.ok (characters s text)

/-- Run the parser from its initial state over a sequence of SAX events;
the first error aborts the stream. -/
def runP (rt : EntityBits) (evs : List Event) : Except XmlErr ParserState :=
  evs.foldlM (step rt) init_state

/-- Model of `static constexpr int buffer_size = 2 * 1000 * 1000`
(xml_input_format.hpp line 144). -/
def buffer_size : Nat := 2 * 1000 * 1000

/-- Byte-level view of `osmium::memory::Buffer` for the flush policy: its
capacity and the `committed()` counter. -/
structure MemoryBuffer where
  capacity : Nat
  committed : Nat
deriving DecidableEq, Repr

/-- Translation of `XMLParser::flush_buffer` (xml_input_format.hpp lines
633-640): when `committed() > buffer_size / 10 * 9` the buffer is moved
to the output queue and replaced by a fresh buffer of capacity
`buffer_size`. -/
def flush_buffer (b : MemoryBuffer) (outq : List MemoryBuffer) :
    MemoryBuffer × List MemoryBuffer :=
  if b.committed > buffer_size / 10 * 9 then
    ({ capacity := buffer_size, committed := 0 }, outq ++ [b])
  else (b, outq)

/-- Translation of the tail of `XMLParser::run` (xml_input_format.hpp
lines 681-683): after the input is exhausted, the remaining buffer is
pushed to the output queue exactly when it has committed content. -/
def run_final_flush (b : MemoryBuffer) (outq : List MemoryBuffer) : List MemoryBuffer :=
  if b.committed > 0 then outq ++ [b] else outq

/-- Whether a context is one of the four IGNORED states. -/
def is_ignored (c : Context) : Bool :=
  match c with
  | Context.ignored_node => true
  | Context.ignored_way => true
  | Context.ignored_relation => true
  | Context.ignored_changeset => true
  | _ => false

/-- The element name whose closing tag leaves an IGNORED state. -/
def ignored_name (c : Context) : String :=
  match c with
  | Context.ignored_node => "node"
  | Context.ignored_way => "way"
  | Context.ignored_relation => "relation"
  | Context.ignored_changeset => "changeset"
  | _ => ""

/-- Which builders are live at a point of the parse: the four kinds of
sublist builders and the four entity builders. -/
structure LiveSet where
  tl : Bool := false
  wnl : Bool := false
  rml : Bool := false
  disc : Bool := false
  eNode : Bool := false
  eWay : Bool := false
  eRel : Bool := false
  eCh : Bool := false
deriving DecidableEq, Repr

/-- Update a live set by one builder lifetime event. -/
def applyEvent (L : LiveSet) : BuilderEvent → LiveSet
  | BuilderEvent.create BuilderKind.tagList => { L with tl := true }
  | BuilderEvent.create BuilderKind.wayNodeList => { L with wnl := true }
  | BuilderEvent.create BuilderKind.relationMemberList => { L with rml := true }
  | BuilderEvent.create BuilderKind.changesetDiscussion => { L with disc := true }
  | BuilderEvent.create (BuilderKind.entity item_type.node) => { L with eNode := true }
  | BuilderEvent.create (BuilderKind.entity item_type.way) => { L with eWay := true }
  | BuilderEvent.create (BuilderKind.entity item_type.relation) => { L with eRel := true }
  | BuilderEvent.create (BuilderKind.entity item_type.changeset) => { L with eCh := true }
  | BuilderEvent.create (BuilderKind.entity item_type.undefined) => L
  | BuilderEvent.finalize BuilderKind.tagList => { L with tl := false }
  | BuilderEvent.finalize BuilderKind.wayNodeList => { L with wnl := false }
  | BuilderEvent.finalize BuilderKind.relationMemberList => { L with rml := false }
  | BuilderEvent.finalize BuilderKind.changesetDiscussion => { L with disc := false }
  | BuilderEvent.finalize (BuilderKind.entity item_type.node) => { L with eNode := false }
  | BuilderEvent.finalize (BuilderKind.entity item_type.way) => { L with eWay := false }
  | BuilderEvent.finalize (BuilderKind.entity item_type.relation) => { L with eRel := false }
  | BuilderEvent.finalize (BuilderKind.entity item_type.changeset) => { L with eCh := false }
  | BuilderEvent.finalize (BuilderKind.entity item_type.undefined) => L

/-- Number of live sublist builders (tag list, way-node list,
relation-member list, changeset discussion). -/
def sublistCount (L : LiveSet) : Nat :=
  (if L.tl then 1 else 0) + (if L.wnl then 1 else 0) +
  (if L.rml then 1 else 0) + (if L.disc then 1 else 0)

/-- Replay a builder lifetime log from a live set. -/
def liveFrom (L : LiveSet) (log : List BuilderEvent) : LiveSet :=
  log.foldl applyEvent L

/-- Well-formedness of a builder lifetime log starting from live set `L`:
after every prefix at most one sublist builder is live (so a builder of a
different sublist kind is always finalized before one of another kind is
created), and whenever an entity builder is finalized no sublist builder
is live any more (all sublists are finalized before their entity
builder). -/
def logOKfrom (L : LiveSet) : List BuilderEvent → Bool
  | [] => true
  | e :: rest =>
      (match e with
       | BuilderEvent.finalize (BuilderKind.entity _) => sublistCount L = 0
       | _ => true) &&
      decide (sublistCount (applyEvent L e) ≤ 1) &&
      logOKfrom (applyEvent L e) rest

/-- The live set recorded in a parser state's builder slots and liveness
flags. -/
def liveOf (s : ParserState) : LiveSet :=
  { tl := s.tl_live, wnl := s.wnl_live, rml := s.rml_live, disc := s.disc_live,
    eNode := s.node_builder.isSome, eWay := s.way_builder.isSome,
    eRel := s.relation_builder.isSome, eCh := s.changeset_builder.isSome }

/-- Constraints tying a context to the builders that can be live there
(`c` is the context, or the saved context while in IN_OBJECT). -/
def ctxBuilders (c : Context) (s : ParserState) : Prop :=
  match c with
  | Context.root | Context.top | Context.ignored_node | Context.ignored_way
  | Context.ignored_relation | Context.ignored_changeset =>
      s.tl_live = false ∧ s.wnl_live = false ∧ s.rml_live = false ∧ s.disc_live = false ∧
      s.node_builder = none ∧ s.way_builder = none ∧
      s.relation_builder = none ∧ s.changeset_builder = none
  | Context.node =>
      s.node_builder.isSome = true ∧ s.way_builder = none ∧
      s.relation_builder = none ∧ s.changeset_builder = none ∧
      s.wnl_live = false ∧ s.rml_live = false ∧ s.disc_live = false
  | Context.way =>
      s.way_builder.isSome = true ∧ s.node_builder = none ∧
      s.relation_builder = none ∧ s.changeset_builder = none ∧
      s.rml_live = false ∧ s.disc_live = false ∧
      (s.tl_live = false ∨ s.wnl_live = false)
  | Context.relation =>
      s.relation_builder.isSome = true ∧ s.node_builder = none ∧
      s.way_builder = none ∧ s.changeset_builder = none ∧
      s.wnl_live = false ∧ s.disc_live = false ∧
      (s.tl_live = false ∨ s.rml_live = false)
  | Context.changeset =>
      s.changeset_builder.isSome = true ∧ s.node_builder = none ∧
      s.way_builder = none ∧ s.relation_builder = none ∧
      s.wnl_live = false ∧ s.rml_live = false ∧
      (s.tl_live = false ∨ s.disc_live = false)
  | Context.discussion | Context.comment | Context.comment_text =>
      s.changeset_builder.isSome = true ∧ s.node_builder = none ∧
      s.way_builder = none ∧ s.relation_builder = none ∧
      s.tl_live = false ∧ s.wnl_live = false ∧ s.rml_live = false ∧ s.disc_live = true
  | Context.in_object => False

/-- Whether the saved context of IN_OBJECT is one of the entity states. -/
def entityCtx (c : Context) : Bool :=
  match c with
  | Context.node | Context.way | Context.relation | Context.changeset => true
  | _ => false

/-- Builder constraint seen from context `c`: while in IN_OBJECT the
constraint of the saved context applies. -/
def ctxInvAt (s : ParserState) (c : Context) : Prop :=
  match c with
  | Context.in_object => entityCtx s.last_context = true ∧ ctxBuilders s.last_context s
  | c => ctxBuilders c s

/-- The inductive state invariant of the parser: the builder liveness
allowed by the current context (through the saved context while in
IN_OBJECT), consistency of the lifetime log with the liveness flags, and
well-formedness of the log. -/
def stateInv (s : ParserState) : Prop :=
  ctxInvAt s s.context ∧
  liveFrom {} s.log = liveOf s ∧
  logOKfrom {} s.log = true

/-- All entities a parser state holds: the committed ones and those still
under construction in builder slots. -/
def entsOf (s : ParserState) : List Entity :=
  s.output ++ s.node_builder.toList ++ s.way_builder.toList ++
  s.relation_builder.toList ++ s.changeset_builder.toList

/-- No relation member anywhere in the entity carries a full member. -/
def noFullMembers (e : Entity) : Prop :=
  ∀ m ∈ e.members, m.member.has_full_member = false ∧ m.embedded = none

/-- No entity held by the parser state has a member with a full member. -/
def membersInv (s : ParserState) : Prop :=
  ∀ e ∈ entsOf s, noFullMembers e

/-- Final parser state of a small run containing one way with one `nd` and
one `tag` child (test vector for the builder-lifetime invariant). -/
def waySample : ParserState :=
  { context := Context.top,
    last_context := Context.way,
    in_delete_section := false,
    header := { version := "0.6", generator := "", multiple_object_versions := false, boxes := [] },
    header_done := true,
    comment_text := "",
    node_builder := none,
    way_builder := none,
    relation_builder := none,
    changeset_builder := none,
    tl_live := false,
    wnl_live := false,
    rml_live := false,
    disc_live := false,
    output := [{ kind := item_type.way,
                 visible := true,
                 location := { lon := none, lat := none },
                 user := "",
                 scalars := [("id", "7")],
                 tags := [("highway", "x")],
                 nodeRefs := [{ ref := 5, location := { lon := none, lat := none } }],
                 members := [],
                 comments := [],
                 bounds_ext := [] }],
    log := [BuilderEvent.create (BuilderKind.entity item_type.way),
            BuilderEvent.create BuilderKind.wayNodeList,
            BuilderEvent.finalize BuilderKind.wayNodeList,
            BuilderEvent.create BuilderKind.tagList,
            BuilderEvent.finalize BuilderKind.tagList,
            BuilderEvent.finalize (BuilderKind.entity item_type.way)] }

/-- Final parser state of a small run containing one relation with one
`member` child (test vector for the member-record invariant). -/
def relationSample : ParserState :=
  { context := Context.top,
    last_context := Context.relation,
    in_delete_section := false,
    header := { version := "0.6", generator := "", multiple_object_versions := false, boxes := [] },
    header_done := true,
    comment_text := "",
    node_builder := none,
    way_builder := none,
    relation_builder := none,
    changeset_builder := none,
    tl_live := false,
    wnl_live := false,
    rml_live := false,
    disc_live := false,
    output := [{ kind := item_type.relation,
                 visible := true,
                 location := { lon := none, lat := none },
                 user := "",
                 scalars := [("id", "9")],
                 tags := [],
                 nodeRefs := [],
                 members := [{ member := { type := item_type.node,
                                           ref := 5,
                                           role_size := 5,
                                           has_full_member := false },
                               role := "stop",
                               embedded := none }],
                 comments := [],
                 bounds_ext := [] }],
    log := [BuilderEvent.create (BuilderKind.entity item_type.relation),
            BuilderEvent.create BuilderKind.relationMemberList,
            BuilderEvent.finalize BuilderKind.relationMemberList,
            BuilderEvent.finalize (BuilderKind.entity item_type.relation)] }

/-!  Theorems.  General lemmas about the lifetime log first, then one
theorem per claim of the specification (with its witness or
counterexample).  -/

theorem liveFrom_append (L : LiveSet) (l1 l2 : List BuilderEvent) :
    liveFrom L (l1 ++ l2) = liveFrom (liveFrom L l1) l2 :=
  List.foldl_append _ _ _ _

theorem logOKfrom_append (L : LiveSet) (l1 l2 : List BuilderEvent) :
    logOKfrom L (l1 ++ l2) = (logOKfrom L l1 && logOKfrom (liveFrom L l1) l2) := by
  induction l1 generalizing L with
  | nil => simp [logOKfrom, liveFrom]
  | cons e rest ih =>
      cases e with
      | create k => simp [logOKfrom, ih, liveFrom, Bool.and_assoc]
      | finalize k => cases k <;> simp [logOKfrom, ih, liveFrom, Bool.and_assoc]

/-- C6: after every entity is committed, `flush_buffer` pushes the buffer
to the output queue and replaces it by a fresh buffer of the same capacity
if and only if `committed()` strictly exceeds `buffer_size / 10 * 9`,
which with capacity 2,000,000 bytes is exactly 1,800,000 (90% of the
capacity); and at the end of the run the remaining buffer is pushed if
and only if `committed() > 0`. -/
theorem C6_flush_policy (b : MemoryBuffer) (outq : List MemoryBuffer)
    (hcap : b.capacity = buffer_size) :
    buffer_size / 10 * 9 = 1800000 ∧
    buffer_size * 9 / 10 = 1800000 ∧
    (1800000 < b.committed →
      flush_buffer b outq = ({ capacity := b.capacity, committed := 0 }, outq ++ [b])) ∧
    (b.committed ≤ 1800000 → flush_buffer b outq = (b, outq)) ∧
    (∀ q, 0 < b.committed → run_final_flush b q = q ++ [b]) ∧
    (∀ q, b.committed = 0 → run_final_flush b q = q) := by
  refine ⟨by norm_num [buffer_size], by norm_num [buffer_size], ?_, ?_, ?_, ?_⟩
  · intro h
    have hgt : b.committed > buffer_size / 10 * 9 := by
      norm_num [buffer_size]; omega
    simp [flush_buffer, hgt, hcap]
  · intro h
    have hle : ¬ b.committed > buffer_size / 10 * 9 := by
      norm_num [buffer_size]; omega
    simp [flush_buffer, hle]
  · intro q h
    simp [run_final_flush, h]
  · intro q h
    simp [run_final_flush, h]

/-- Witness for C6 at a concrete buffer: committed 1,900,000 out of
2,000,000 is over the threshold and the buffer is pushed. -/
theorem C6_flush_policy_witness :
    flush_buffer ⟨buffer_size, 1900000⟩ [] =
      ({ capacity := buffer_size, committed := 0 }, [⟨buffer_size, 1900000⟩]) :=
  (C6_flush_policy ⟨buffer_size, 1900000⟩ [] rfl).2.2.1 (by norm_num)

/-- C8: `lon`/`lat` numeric parsing uses the "C" locale (decimal separator
`'.'`) independent of the ambient locale's separator, as `atof_helper`
imbues its stream with the `"C"` locale.  The string `"1,5"` is parsed as
the C-locale reading, the number 1 with the trailing `",5"` ignored; a
locale whose decimal separator is `','` (a European ambient locale would
supply one) would read 3/2, and `atof_helper` never returns that. -/
theorem C8_locale_independence (ambientSep : Char) (s : String) :
    atof_helper ambientSep s = atof_helper '.' s ∧
    atof_helper ambientSep "1,5" = 1 ∧
    istreamExtractDouble ',' "1,5" = some (3 / 2) ∧
    atof_helper ambientSep "1,5" ≠ 3 / 2 := by
  have hdot : istreamExtractDouble '.' "1,5" =
      some (((digitsToNat ['1'] : Rat) +
        (digitsToNat ([] : List Char) : Rat) / (10 : Rat) ^ ([] : List Char).length) *
          (10 : Rat) ^ (0 : Int)) := rfl
  have hcomma : istreamExtractDouble ',' "1,5" =
      some (((digitsToNat ['1'] : Rat) +
        (digitsToNat ['5'] : Rat) / (10 : Rat) ^ (['5'] : List Char).length) *
          (10 : Rat) ^ (0 : Int)) := rfl
  have h1 : digitsToNat ['1'] = 1 := rfl
  have h5 : digitsToNat ['5'] = 5 := rfl
  have h0 : digitsToNat ([] : List Char) = 0 := rfl
  have hval : atof_helper ambientSep "1,5" = 1 := by
    show (istreamExtractDouble '.' "1,5").getD 0 = 1
    rw [hdot, h1, h0]
    norm_num
  refine ⟨rfl, hval, ?_, ?_⟩
  · rw [hcomma, h1, h5]
    norm_num
  · rw [hval]
    norm_num

/-- C3 (amended): in an IGNORED state every `start_element` is a no-op on
the whole parser state, and so is every `end_element` whose name differs
from the ignored entity's element name; the first `end_element` carrying
the ignored entity's element name returns the state to TOP — the parser
does not track nesting depth, so this can be the closing tag of a nested
element of the same name rather than the one matching the opening tag. -/
theorem C3_ignored_states (rt : EntityBits) (s : ParserState)
    (h : is_ignored s.context = true) :
    (∀ name attrs, step rt s (Event.startEl name attrs) = Except.ok s) ∧
    (∀ name, name ≠ ignored_name s.context → step rt s (Event.endEl name) = Except.ok s) ∧
    step rt s (Event.endEl (ignored_name s.context)) =
      Except.ok { s with context := Context.top } := by
  cases hc : s.context <;> rw [hc] at h <;> simp [is_ignored] at h
  all_goals
    refine ⟨fun name attrs => by simp [step, start_element, hc],
            fun name hne => ?_,
            by simp [step, end_element, hc, ignored_name]⟩
  all_goals simp only [ignored_name] at hne
  all_goals simp [step, end_element, hc, hne]

/-- Counterexample to C3 as stated: with nodes filtered out, the event
sequence start(node), start(node), end(node) — the end event closing the
nested inner `node` element, not the tag matching the ignored entity's
opening tag — already returns the parser to TOP instead of staying in
IGNORED_NODE. -/
theorem C3_nested_close_counterexample :
    (runP ⟨false, true, true, true⟩
      [Event.startEl "osm" [("version", "0.6")], Event.startEl "node" [],
       Event.startEl "node" [], Event.endEl "node"]).map (fun s => s.context) =
      Except.ok Context.top ∧
    Context.top ≠ Context.ignored_node :=
  ⟨rfl, by decide⟩

/-- C4 (amended): closing `text` in COMMENT_TEXT pushes the accumulated
comment text into the discussion builder and returns to COMMENT, but the
accumulator is NOT cleared by this transition: it is reset only by a
later `characters` event arriving outside COMMENT_TEXT (and appended to
inside COMMENT_TEXT), so when no characters event occurs between two
`text` elements the second comment's text starts with the first
comment's characters. -/
theorem C4_comment_text_close (rt : EntityBits) (s : ParserState) (ent : Entity)
    (hctx : s.context = Context.comment_text)
    (hcs : s.changeset_builder = some ent) :
    step rt s (Event.endEl "text") =
      Except.ok
        { s with
            context := Context.comment,
            changeset_builder :=
              some { ent with comments := set_last_text ent.comments s.comment_text } } ∧
    (∀ (s' : ParserState) (text : String), s'.context ≠ Context.comment_text →
      (characters s' text).comment_text = "") ∧
    (∀ (s' : ParserState) (text : String), s'.context = Context.comment_text →
      (characters s' text).comment_text = s'.comment_text ++ text) := by
  refine ⟨?_, ?_, ?_⟩
  · simp [step, end_element, hctx, add_comment_text, hcs]
  · intro s' text h; simp [characters, h]
  · intro s' text h; simp [characters, h]

/-- Witness for C4 (amended) at a concrete state inside a changeset
discussion. -/
theorem C4_comment_text_close_witness :
    step allBits
      { init_state with
          context := Context.comment_text,
          comment_text := "hi",
          changeset_builder := some { kind := item_type.changeset },
          disc_live := true }
      (Event.endEl "text") =
      Except.ok
        { init_state with
            context := Context.comment,
            comment_text := "hi",
            changeset_builder := some { kind := item_type.changeset },
            disc_live := true } :=
  (C4_comment_text_close allBits _ { kind := item_type.changeset } rfl rfl).1

/-- Counterexample to C4 as stated: right after the first `</text>` the
accumulator still holds `"hi"` (it was not cleared), and in a run where
no characters event occurs between the two `text` elements the second
comment's text comes out as `"hi!"` — starting with the previous
comment's characters — instead of `"!"`. -/
theorem C4_accumulator_counterexample :
    (runP allBits
      [Event.startEl "osm" [("version", "0.6")], Event.startEl "changeset" [("id", "1")],
       Event.startEl "discussion" [], Event.startEl "comment" [("uid", "7"), ("user", "a")],
       Event.startEl "text" [], Event.chars "hi", Event.endEl "text"]).map
        (fun s => s.comment_text) = Except.ok "hi" ∧
    ("hi" : String) ≠ "" ∧
    (runP allBits
      [Event.startEl "osm" [("version", "0.6")], Event.startEl "changeset" [("id", "1")],
       Event.startEl "discussion" [], Event.startEl "comment" [("uid", "7"), ("user", "a")],
       Event.startEl "text" [], Event.chars "hi", Event.endEl "text", Event.endEl "comment",
       Event.startEl "comment" [("uid", "8"), ("user", "b")], Event.startEl "text" [],
       Event.chars "!", Event.endEl "text", Event.endEl "comment", Event.endEl "discussion",
       Event.endEl "changeset", Event.endEl "osm"]).map
        (fun s => s.output.map (fun e => e.comments.map (fun c => c.text))) =
      Except.ok [[some "hi", some "hi!"]] ∧
    some ("hi!" : String) ≠ some "!" :=
  ⟨rfl, by decide, rfl, by decide⟩

theorem resetTl_relation_builder (st : ParserState) :
    (resetTl st).relation_builder = st.relation_builder := by
  unfold resetTl; split <;> rfl

theorem ensureRml_relation_builder (st : ParserState) :
    (ensureRml st).relation_builder = st.relation_builder := by
  unfold ensureRml; split <;> rfl

theorem mapSlot_relation_builder (st : ParserState) (f : Entity → Entity) :
    (mapSlot st item_type.relation f).relation_builder = st.relation_builder.map f := rfl

theorem ensureTl_node_builder (st : ParserState) :
    (ensureTl st).node_builder = st.node_builder := by
  unfold ensureTl; split <;> rfl

theorem mapSlot_node_builder (st : ParserState) (f : Entity → Entity) :
    (mapSlot st item_type.node f).node_builder = st.node_builder.map f := rfl

/-- C5: a `member` element inside a relation raises a schema-violation
error exactly when the scanned type does not map to node/way/relation or
the scanned ref is zero (a missing `ref` attribute stays 0); the type is
checked first; otherwise the member (type, ref, role) is appended to the
relation's member list and no error is raised. -/
theorem C5_relation_member (rt : EntityBits) (s : ParserState) (ent : Entity)
    (attrs : List (String × String))
    (hctx : s.context = Context.relation)
    (hrel : s.relation_builder = some ent) :
    (¬((member_attrs attrs).type = item_type.node ∨
        (member_attrs attrs).type = item_type.way ∨
        (member_attrs attrs).type = item_type.relation) →
      step rt s (Event.startEl "member" attrs) =
        Except.error (XmlErr.xml_error "Unknown type on relation member")) ∧
    (((member_attrs attrs).type = item_type.node ∨
        (member_attrs attrs).type = item_type.way ∨
        (member_attrs attrs).type = item_type.relation) →
      (member_attrs attrs).ref = 0 →
      step rt s (Event.startEl "member" attrs) =
        Except.error (XmlErr.xml_error "Missing ref on relation member")) ∧
    (((member_attrs attrs).type = item_type.node ∨
        (member_attrs attrs).type = item_type.way ∨
        (member_attrs attrs).type = item_type.relation) →
      (member_attrs attrs).ref ≠ 0 →
      ∃ s', step rt s (Event.startEl "member" attrs) = Except.ok s' ∧
        s'.relation_builder = some { ent with
          members := add_member ent.members (member_attrs attrs).type
            (member_attrs attrs).ref (member_attrs attrs).role }) := by
  refine ⟨?_, ?_, ?_⟩
  · intro h
    push_neg at h
    simp [step, start_element, hctx, h.1, h.2.1, h.2.2]
  · intro h h0
    rcases h with h | h | h <;> simp [step, start_element, hctx, h, h0]
  · intro h h0
    have hne : ¬((member_attrs attrs).type ≠ item_type.node ∧
        (member_attrs attrs).type ≠ item_type.way ∧
        (member_attrs attrs).type ≠ item_type.relation) := by
      rcases h with h | h | h <;> simp [h]
    have hstep : step rt s (Event.startEl "member" attrs) =
        Except.ok (mapSlot
          (ensureRml (resetTl
            { s with last_context := Context.relation, context := Context.in_object }))
          item_type.relation
          (fun e =>
            { e with
                members := add_member e.members (member_attrs attrs).type (member_attrs attrs).ref (member_attrs attrs).role })) := by
      simp only [step, start_element, hctx]
      rw [if_pos trivial, if_neg hne, if_neg h0]
    refine ⟨_, hstep, ?_⟩
    rw [mapSlot_relation_builder, ensureRml_relation_builder, resetTl_relation_builder]
    simp [hrel]

/-- Witness for C5: a member with type "way" and ref 2 is accepted and
appended. -/
theorem C5_relation_member_witness :
    ∃ s', step allBits
        { init_state with context := Context.relation,
                          relation_builder := some { kind := item_type.relation } }
        (Event.startEl "member" [("type", "way"), ("ref", "2"), ("role", "r")]) =
      Except.ok s' ∧
      s'.relation_builder = some { ({ kind := item_type.relation } : Entity) with
        members := add_member [] item_type.way 2 "r" } := by
  have h := (C5_relation_member allBits
    { init_state with context := Context.relation,
                      relation_builder := some { kind := item_type.relation } }
    { kind := item_type.relation }
    [("type", "way"), ("ref", "2"), ("role", "r")] rfl rfl).2.2
  exact h (Or.inr (Or.inl (by decide))) (by decide)

/-- C10: a `tag` element never raises an error; a missing `k` attribute
defaults the key to the empty string and a missing `v` attribute defaults
the value to the empty string, and the (possibly empty) pair is appended
to the entity's tag list. -/
theorem C10_tag_defaults (rt : EntityBits) (s : ParserState) (ent : Entity)
    (attrs : List (String × String))
    (hctx : s.context = Context.node)
    (hnb : s.node_builder = some ent) :
    (∃ s', step rt s (Event.startEl "tag" attrs) = Except.ok s' ∧
       s'.node_builder = some { ent with tags := ent.tags ++ [tag_attrs attrs] }) ∧
    ((∀ a ∈ attrs, a.1 ≠ "k") → (tag_attrs attrs).1 = "") ∧
    ((∀ a ∈ attrs, a.1 ≠ "v") → (tag_attrs attrs).2 = "") := by
  refine ⟨?_, ?_, ?_⟩
  · have hstep : step rt s (Event.startEl "tag" attrs) =
        Except.ok (get_tag item_type.node
          { s with last_context := Context.node, context := Context.in_object } attrs) := by
      simp only [step, start_element, hctx]
      rw [if_pos trivial]
    refine ⟨_, hstep, ?_⟩
    unfold get_tag
    rw [mapSlot_node_builder, ensureTl_node_builder]
    simp [hnb]
  · intro h
    have key : ∀ (l : List (String × String)) (kv : String × String),
        (∀ a ∈ l, a.1 ≠ "k") → (l.foldl tag_scan_step kv).1 = kv.1 := by
      intro l
      induction l with
      | nil => intro kv _; rfl
      | cons a rest ih =>
          intro kv hl
          rw [List.foldl_cons, ih _ (fun x hx => hl x (List.mem_cons_of_mem a hx))]
          have ha : ¬ a.1 = "k" := hl a (List.mem_cons_self a rest)
          unfold tag_scan_step
          rw [if_neg ha]
          split <;> rfl
    exact key attrs ("", "") h
  · intro h
    have key : ∀ (l : List (String × String)) (kv : String × String),
        (∀ a ∈ l, a.1 ≠ "v") → (l.foldl tag_scan_step kv).2 = kv.2 := by
      intro l
      induction l with
      | nil => intro kv _; rfl
      | cons a rest ih =>
          intro kv hl
          rw [List.foldl_cons, ih _ (fun x hx => hl x (List.mem_cons_of_mem a hx))]
          have ha : ¬ a.1 = "v" := hl a (List.mem_cons_self a rest)
          unfold tag_scan_step
          rw [if_neg ha]
          split <;> rfl
    exact key attrs ("", "") h

/-- Witness for C10: a `tag` element with no attributes at all appends
the tag ("", ""). -/
theorem C10_tag_defaults_witness :
    ∃ s', step allBits
        { init_state with context := Context.node,
                          node_builder := some { kind := item_type.node } }
        (Event.startEl "tag" []) = Except.ok s' ∧
      s'.node_builder = some { ({ kind := item_type.node } : Entity) with tags := [("", "")] } := by
  have h := (C10_tag_defaults allBits
    { init_state with context := Context.node,
                      node_builder := some { kind := item_type.node } }
    { kind := item_type.node } [] rfl rfl).1
  exact h

/-- C1 (amended): `init_object` sets the visible flag false before the
attribute scan when the parser is inside a `<delete>` section, so an
entity element carrying no `visible` attribute is emitted with
`visible == false`; a `visible` attribute, scanned afterwards, overrides
this default (see the counterexample for `visible="true"`). -/
theorem C1_delete_invisible (obj : Entity) (attrs : List (String × String))
    (h : ∀ a ∈ attrs, a.1 ≠ "visible") :
    (init_object true obj attrs).1.visible = false := by
  have key : ∀ (l : List (String × String)) (acc : ObjScan),
      (∀ a ∈ l, a.1 ≠ "visible") →
      (l.foldl obj_scan_step acc).obj.visible = acc.obj.visible := by
    intro l
    induction l with
    | nil => intro acc _; rfl
    | cons a rest ih =>
        intro acc hl
        rw [List.foldl_cons, ih _ (fun x hx => hl x (List.mem_cons_of_mem a hx))]
        have ha : ¬ a.1 = "visible" := hl a (List.mem_cons_self a rest)
        unfold obj_scan_step
        split_ifs <;> try rfl
        show (set_attribute acc.obj a.1 a.2).visible = acc.obj.visible
        unfold set_attribute
        rw [if_neg ha]
  unfold init_object
  rw [if_pos rfl]
  have hv := key attrs { obj := { obj with visible := false } } h
  dsimp only
  split <;> simpa using hv

/-- Witness for C1 (amended): no attributes at all inside a delete
section yields an invisible entity. -/
theorem C1_delete_invisible_witness :
    (init_object true { kind := item_type.node } []).1.visible = false :=
  C1_delete_invisible { kind := item_type.node } [] (by simp)

/-- Counterexample to C1 as stated: inside `<delete>` a node carrying
`visible="true"` IS emitted visible, because `init_object` clears the
flag before the attribute scan and `set_attribute` then processes the
`visible` attribute. -/
theorem C1_delete_visible_counterexample :
    (runP allBits
      [Event.startEl "osmChange" [("version", "0.6")], Event.startEl "delete" [],
       Event.startEl "node" [("id", "9"), ("visible", "true")], Event.endEl "node"]).map
        (fun s => s.output.map (fun e => e.visible)) = Except.ok [true] ∧
    (true : Bool) ≠ false :=
  ⟨rfl, by decide⟩

theorem scan_root_attrs_bad_version (attrs : List (String × String))
    (av : String × String)
    (hfind : attrs.find? (fun a => a.1 == "version") = some av)
    (hbad : av.2 ≠ "0.6") :
    ∀ h : Header, scan_root_attrs h attrs = Except.error (XmlErr.formatVersion av.2) := by
  induction attrs with
  | nil => simp at hfind
  | cons a rest ih =>
      intro h
      by_cases ha : a.1 = "version"
      · rw [List.find?_cons_of_pos _ (by simp [ha])] at hfind
        have hav : av = a := (Option.some.inj hfind).symm
        rw [hav] at hbad ⊢
        show (root_scan_step h a >>= fun b => rest.foldlM root_scan_step b) = _
        unfold root_scan_step
        rw [if_pos ha, if_pos hbad]
        rfl
      · rw [List.find?_cons_of_neg _ (by simp [ha])] at hfind
        show (root_scan_step h a >>= fun b => rest.foldlM root_scan_step b) = _
        unfold root_scan_step
        rw [if_neg ha]
        split
        · exact ih hfind _
        · exact ih hfind _

theorem scan_root_attrs_no_version (attrs : List (String × String))
    (hfind : attrs.find? (fun a => a.1 == "version") = none) :
    ∀ h : Header, ∃ h', scan_root_attrs h attrs = Except.ok h' ∧ h'.version = h.version := by
  induction attrs with
  | nil => exact fun h => ⟨h, rfl, rfl⟩
  | cons a rest ih =>
      intro h
      have ha : ¬ a.1 = "version" := by
        intro hh
        rw [List.find?_cons_of_pos _ (by simp [hh])] at hfind
        cases hfind
      rw [List.find?_cons_of_neg _ (by simp [ha])] at hfind
      show ∃ h', (root_scan_step h a >>= fun b => rest.foldlM root_scan_step b) =
        Except.ok h' ∧ h'.version = h.version
      unfold root_scan_step
      rw [if_neg ha]
      split
      · obtain ⟨h', h1, h2⟩ := ih hfind { h with generator := a.2 }
        exact ⟨h', h1, h2⟩
      · exact ih hfind h

/-- C2: if the root element (`osm` or `osmChange`) carries a first
`version` attribute whose value differs from "0.6", the parse of the
whole stream fails with the format-version error carrying that value;
if it has no `version` attribute, the parse fails with the
format-version error carrying the empty version.  Since the run aborts
with an error at the root element, no entity is produced.  Leading
character-data events (whitespace) do not affect this. -/
theorem C2_version_gate (root : String) (attrs : List (String × String))
    (pre rest : List Event) (av : String × String)
    (hroot : root = "osm" ∨ root = "osmChange")
    (hpre : ∀ e ∈ pre, ∃ t, e = Event.chars t) :
    (attrs.find? (fun a => a.1 == "version") = some av → av.2 ≠ "0.6" →
      ∀ rt, runP rt (pre ++ Event.startEl root attrs :: rest) =
        Except.error (XmlErr.formatVersion av.2)) ∧
    (attrs.find? (fun a => a.1 == "version") = none →
      ∀ rt, runP rt (pre ++ Event.startEl root attrs :: rest) =
        Except.error (XmlErr.formatVersion "")) := by
  have hpre_run : ∀ rt, pre.foldlM (step rt) init_state = Except.ok init_state := by
    intro rt
    clear hroot
    induction pre with
    | nil => rfl
    | cons e p ih =>
        obtain ⟨t, rfl⟩ := hpre e (List.mem_cons_self e p)
        rw [List.foldlM_cons]
        have hchars : step rt init_state (Event.chars t) = Except.ok init_state := rfl
        rw [hchars]
        exact ih (fun x hx => hpre x (List.mem_cons_of_mem _ hx))
  have hsplit : ∀ rt e, step rt init_state (Event.startEl root attrs) = Except.error e →
      runP rt (pre ++ Event.startEl root attrs :: rest) = Except.error e := by
    intro rt e hstep
    unfold runP
    rw [List.foldlM_append, hpre_run]
    show List.foldlM (step rt) init_state (Event.startEl root attrs :: rest) = Except.error e
    rw [List.foldlM_cons, hstep]
    rfl
  constructor
  · intro hfind hbad rt
    apply hsplit
    rcases hroot with h | h <;> subst h <;>
      simp [step, start_element, init_state,
        scan_root_attrs_bad_version attrs av hfind hbad]
  · intro hfind rt
    apply hsplit
    rcases hroot with h | h <;> subst h
    · obtain ⟨h', hok, hver⟩ := scan_root_attrs_no_version attrs hfind
        { version := "", generator := "", multiple_object_versions := false, boxes := [] }
      simp [step, start_element, init_state, hok, hver]
    · obtain ⟨h', hok, hver⟩ := scan_root_attrs_no_version attrs hfind
        { version := "", generator := "", multiple_object_versions := true, boxes := [] }
      simp [step, start_element, init_state, hok, hver]

/-- Witness for C2: version "0.5" on the root element fails with the
format-version error carrying "0.5". -/
theorem C2_version_gate_witness :
    runP allBits [Event.startEl "osm" [("version", "0.5")]] =
      Except.error (XmlErr.formatVersion "0.5") := by
  have h := (C2_version_gate "osm" [("version", "0.5")] [] [] ("version", "0.5")
    (Or.inl rfl) (by simp)).1
  exact h (by rfl) (by decide) allBits

theorem liveFrom_extend (s : ParserState) (Δ : List BuilderEvent)
    (hlive : liveFrom {} s.log = liveOf s) :
    liveFrom {} (s.log ++ Δ) = liveFrom (liveOf s) Δ := by
  rw [liveFrom_append, hlive]

theorem logOK_extend (s : ParserState) (Δ : List BuilderEvent)
    (hlive : liveFrom {} s.log = liveOf s) (hlog : logOKfrom {} s.log = true)
    (hseg : logOKfrom (liveOf s) Δ = true) :
    logOKfrom {} (s.log ++ Δ) = true := by
  rw [logOKfrom_append, hlog, hlive, hseg]
  rfl

theorem mark_header_as_done_liveOf (s : ParserState) :
    liveOf (mark_header_as_done s) = liveOf s := by
  unfold mark_header_as_done; split <;> rfl

theorem mark_header_as_done_log (s : ParserState) :
    (mark_header_as_done s).log = s.log := by
  unfold mark_header_as_done; split <;> rfl

theorem mark_header_as_done_builders (s : ParserState) :
    (mark_header_as_done s).tl_live = s.tl_live ∧
    (mark_header_as_done s).wnl_live = s.wnl_live ∧
    (mark_header_as_done s).rml_live = s.rml_live ∧
    (mark_header_as_done s).disc_live = s.disc_live ∧
    (mark_header_as_done s).node_builder = s.node_builder ∧
    (mark_header_as_done s).way_builder = s.way_builder ∧
    (mark_header_as_done s).relation_builder = s.relation_builder ∧
    (mark_header_as_done s).changeset_builder = s.changeset_builder := by
  unfold mark_header_as_done; split <;> exact ⟨rfl, rfl, rfl, rfl, rfl, rfl, rfl, rfl⟩

@[simp] theorem resetTl_context (st : ParserState) : (resetTl st).context = st.context := by
  unfold resetTl; split <;> rfl

@[simp] theorem resetWnl_context (st : ParserState) : (resetWnl st).context = st.context := by
  unfold resetWnl; split <;> rfl

@[simp] theorem resetRml_context (st : ParserState) : (resetRml st).context = st.context := by
  unfold resetRml; split <;> rfl

@[simp] theorem resetDisc_context (st : ParserState) : (resetDisc st).context = st.context := by
  unfold resetDisc; split <;> rfl

@[simp] theorem ensureTl_context (st : ParserState) : (ensureTl st).context = st.context := by
  unfold ensureTl; split <;> rfl

@[simp] theorem ensureWnl_context (st : ParserState) : (ensureWnl st).context = st.context := by
  unfold ensureWnl; split <;> rfl

@[simp] theorem ensureRml_context (st : ParserState) : (ensureRml st).context = st.context := by
  unfold ensureRml; split <;> rfl

@[simp] theorem ensureDisc_context (st : ParserState) : (ensureDisc st).context = st.context := by
  unfold ensureDisc; split <;> rfl

@[simp] theorem mapSlot_context (st : ParserState) (k : item_type) (f : Entity → Entity) :
    (mapSlot st k f).context = st.context := by
  cases k <;> rfl

@[simp] theorem get_tag_context (p : item_type) (st : ParserState)
    (attrs : List (String × String)) : (get_tag p st attrs).context = st.context := by
  unfold get_tag
  rw [mapSlot_context, ensureTl_context]

@[simp] theorem add_comment_context (st : ParserState) (c : Comment) :
    (add_comment st c).context = st.context := rfl

@[simp] theorem add_comment_text_context (st : ParserState) (t : String) :
    (add_comment_text st t).context = st.context := rfl

@[simp] theorem close_entity_context (st : ParserState) (k : item_type) :
    (close_entity st k).context = Context.top := by
  unfold close_entity; split <;> rfl

theorem stateInv_mk (s : ParserState) (c : Context) (hc : s.context = c)
    (h1 : ctxInvAt s c)
    (h2 : liveFrom {} s.log = liveOf s) (h3 : logOKfrom {} s.log = true) : stateInv s := by
  refine ⟨?_, h2, h3⟩
  subst hc
  exact h1

theorem step_preserves_stateInv (rt : EntityBits) (s s' : ParserState) (e : Event)
    (hs : stateInv s) (h : step rt s e = Except.ok s') : stateInv s' := by
  obtain ⟨hctx, hlive, hlog⟩ := hs
  cases e with
  | chars t =>
      simp only [step] at h
      injection h with h
      subst h
      unfold characters
      split
      · exact ⟨hctx, hlive, hlog⟩
      · exact ⟨hctx, hlive, hlog⟩
  | startEl name attrs =>
      simp only [step] at h
      cases hcs : s.context <;> rw [hcs] at hctx <;> simp only [start_element, hcs] at h
      case root =>
        obtain ⟨htl0, hwnl0, hrml0, hdisc0, hnb0, hwb0, hrb0, hcb0⟩ := hctx
        by_cases hr : name = "osm" ∨ name = "osmChange"
        · rw [if_pos hr] at h
          split at h
          · exact Except.noConfusion h
          · split at h
            · exact Except.noConfusion h
            · injection h with h
              subst h
              exact stateInv_mk _ Context.top rfl
                ⟨htl0, hwnl0, hrml0, hdisc0, hnb0, hwb0, hrb0, hcb0⟩ hlive hlog
        · rw [if_neg hr] at h; exact Except.noConfusion h
      case top =>
        obtain ⟨htl0, hwnl0, hrml0, hdisc0, hnb0, hwb0, hrb0, hcb0⟩ := hctx
        obtain ⟨hm1, hm2, hm3, hm4, hm5, hm6, hm7, hm8⟩ := mark_header_as_done_builders s
        by_cases hn : name = "node"
        · rw [if_pos hn] at h
          by_cases hrt : rt.node = true
          · rw [if_pos hrt] at h
            injection h with h
            subst h
            apply stateInv_mk _ Context.node rfl
            · simp [newEntityBuilder, mapSlotSet, getSlot, ctxInvAt, ctxBuilders,
                hm1, hm2, hm3, hm4, hm5, hm6, hm7, hm8, hwnl0, hrml0, hdisc0, hwb0, hrb0, hcb0]
            · simp only [newEntityBuilder, mapSlotSet, getSlot, hm5, hnb0, Option.isSome_none,
                Bool.false_eq_true, if_false, List.append_nil, mark_header_as_done_log]
              rw [liveFrom_extend _ _ hlive]
              simp [liveFrom, applyEvent, liveOf,
                hm1, hm2, hm3, hm4, hm5, hm6, hm7, hm8, hnb0]
            · simp only [newEntityBuilder, mapSlotSet, getSlot, hm5, hnb0, Option.isSome_none,
                Bool.false_eq_true, if_false, List.append_nil, mark_header_as_done_log]
              rw [logOK_extend _ _ hlive hlog]
              simp [logOKfrom, applyEvent, sublistCount, liveOf, htl0, hwnl0, hrml0, hdisc0]
          · rw [if_neg hrt] at h
            injection h with h
            subst h
            apply stateInv_mk _ Context.ignored_node rfl
            · exact ⟨hm1.trans htl0, hm2.trans hwnl0, hm3.trans hrml0, hm4.trans hdisc0,
                hm5.trans hnb0, hm6.trans hwb0, hm7.trans hrb0, hm8.trans hcb0⟩
            · rw [mark_header_as_done_log]
              exact hlive.trans (mark_header_as_done_liveOf s).symm
            · rw [mark_header_as_done_log]; exact hlog
        · rw [if_neg hn] at h
          by_cases hw : name = "way"
          · rw [if_pos hw] at h
            by_cases hrt : rt.way = true
            · rw [if_pos hrt] at h
              injection h with h
              subst h
              apply stateInv_mk _ Context.way rfl
              · simp [newEntityBuilder, mapSlotSet, getSlot, ctxInvAt, ctxBuilders,
                  hm1, hm2, hm3, hm4, hm5, hm6, hm7, hm8, htl0, hrml0, hdisc0, hnb0, hrb0, hcb0]
              · simp only [newEntityBuilder, mapSlotSet, getSlot, hm6, hwb0, Option.isSome_none,
                  Bool.false_eq_true, if_false, List.append_nil, mark_header_as_done_log]
                rw [liveFrom_extend _ _ hlive]
                simp [liveFrom, applyEvent, liveOf,
                  hm1, hm2, hm3, hm4, hm5, hm6, hm7, hm8, hwb0]
              · simp only [newEntityBuilder, mapSlotSet, getSlot, hm6, hwb0, Option.isSome_none,
                  Bool.false_eq_true, if_false, List.append_nil, mark_header_as_done_log]
                rw [logOK_extend _ _ hlive hlog]
                simp [logOKfrom, applyEvent, sublistCount, liveOf, htl0, hwnl0, hrml0, hdisc0]
            · rw [if_neg hrt] at h
              injection h with h
              subst h
              apply stateInv_mk _ Context.ignored_way rfl
              · exact ⟨hm1.trans htl0, hm2.trans hwnl0, hm3.trans hrml0, hm4.trans hdisc0,
                  hm5.trans hnb0, hm6.trans hwb0, hm7.trans hrb0, hm8.trans hcb0⟩
              · rw [mark_header_as_done_log]
                exact hlive.trans (mark_header_as_done_liveOf s).symm
              · rw [mark_header_as_done_log]; exact hlog
          · rw [if_neg hw] at h
            by_cases hrel : name = "relation"
            · rw [if_pos hrel] at h
              by_cases hrt : rt.relation = true
              · rw [if_pos hrt] at h
                injection h with h
                subst h
                apply stateInv_mk _ Context.relation rfl
                · simp [newEntityBuilder, mapSlotSet, getSlot, ctxInvAt, ctxBuilders,
                    hm1, hm2, hm3, hm4, hm5, hm6, hm7, hm8, htl0, hwnl0, hdisc0, hnb0, hwb0, hcb0]
                · simp only [newEntityBuilder, mapSlotSet, getSlot, hm7, hrb0, Option.isSome_none,
                    Bool.false_eq_true, if_false, List.append_nil, mark_header_as_done_log]
                  rw [liveFrom_extend _ _ hlive]
                  simp [liveFrom, applyEvent, liveOf,
                    hm1, hm2, hm3, hm4, hm5, hm6, hm7, hm8, hrb0]
                · simp only [newEntityBuilder, mapSlotSet, getSlot, hm7, hrb0, Option.isSome_none,
                    Bool.false_eq_true, if_false, List.append_nil, mark_header_as_done_log]
                  rw [logOK_extend _ _ hlive hlog]
                  simp [logOKfrom, applyEvent, sublistCount, liveOf, htl0, hwnl0, hrml0, hdisc0]
              · rw [if_neg hrt] at h
                injection h with h
                subst h
                apply stateInv_mk _ Context.ignored_relation rfl
                · exact ⟨hm1.trans htl0, hm2.trans hwnl0, hm3.trans hrml0, hm4.trans hdisc0,
                    hm5.trans hnb0, hm6.trans hwb0, hm7.trans hrb0, hm8.trans hcb0⟩
                · rw [mark_header_as_done_log]
                  exact hlive.trans (mark_header_as_done_liveOf s).symm
                · rw [mark_header_as_done_log]; exact hlog
            · rw [if_neg hrel] at h
              by_cases hch : name = "changeset"
              · rw [if_pos hch] at h
                by_cases hrt : rt.changeset = true
                · rw [if_pos hrt] at h
                  injection h with h
                  subst h
                  apply stateInv_mk _ Context.changeset rfl
                  · simp [newEntityBuilder, mapSlotSet, getSlot, ctxInvAt, ctxBuilders,
                      hm1, hm2, hm3, hm4, hm5, hm6, hm7, hm8, htl0, hwnl0, hrml0, hnb0, hwb0, hrb0]
                  · simp only [newEntityBuilder, mapSlotSet, getSlot, hm8, hcb0, Option.isSome_none,
                      Bool.false_eq_true, if_false, List.append_nil, mark_header_as_done_log]
                    rw [liveFrom_extend _ _ hlive]
                    simp [liveFrom, applyEvent, liveOf,
                      hm1, hm2, hm3, hm4, hm5, hm6, hm7, hm8, hcb0]
                  · simp only [newEntityBuilder, mapSlotSet, getSlot, hm8, hcb0, Option.isSome_none,
                      Bool.false_eq_true, if_false, List.append_nil, mark_header_as_done_log]
                    rw [logOK_extend _ _ hlive hlog]
                    simp [logOKfrom, applyEvent, sublistCount, liveOf, htl0, hwnl0, hrml0, hdisc0]
                · rw [if_neg hrt] at h
                  injection h with h
                  subst h
                  apply stateInv_mk _ Context.ignored_changeset rfl
                  · exact ⟨hm1.trans htl0, hm2.trans hwnl0, hm3.trans hrml0, hm4.trans hdisc0,
                      hm5.trans hnb0, hm6.trans hwb0, hm7.trans hrb0, hm8.trans hcb0⟩
                  · rw [mark_header_as_done_log]
                    exact hlive.trans (mark_header_as_done_liveOf s).symm
                  · rw [mark_header_as_done_log]; exact hlog
              · rw [if_neg hch] at h
                by_cases hb : name = "bounds"
                · rw [if_pos hb] at h
                  injection h with h
                  subst h
                  exact stateInv_mk _ Context.top rfl
                    ⟨htl0, hwnl0, hrml0, hdisc0, hnb0, hwb0, hrb0, hcb0⟩ hlive hlog
                · rw [if_neg hb] at h
                  by_cases hd : name = "delete"
                  · rw [if_pos hd] at h
                    injection h with h
                    subst h
                    exact stateInv_mk _ Context.top rfl
                      ⟨htl0, hwnl0, hrml0, hdisc0, hnb0, hwb0, hrb0, hcb0⟩ hlive hlog
                  · rw [if_neg hd] at h
                    injection h with h
                    subst h
                    exact stateInv_mk _ Context.top hcs
                      ⟨htl0, hwnl0, hrml0, hdisc0, hnb0, hwb0, hrb0, hcb0⟩ hlive hlog
      case node =>
        obtain ⟨hnbs, hwb0, hrb0, hcb0, hwnl0, hrml0, hdisc0⟩ := hctx
        by_cases htag : name = "tag"
        · rw [if_pos htag] at h
          injection h with h
          subst h
          by_cases htl : s.tl_live = true
          · apply stateInv_mk _ Context.in_object (by simp)
            · simp [get_tag, ensureTl, mapSlot, htl, ctxInvAt, ctxInvAt, ctxBuilders, entityCtx,
                hnbs, hwb0, hrb0, hcb0, hwnl0, hrml0, hdisc0]
            · simpa [get_tag, ensureTl, mapSlot, htl, liveOf] using hlive
            · simpa [get_tag, ensureTl, mapSlot, htl] using hlog
          · have htl' : s.tl_live = false := by revert htl; cases s.tl_live <;> simp
            apply stateInv_mk _ Context.in_object (by simp)
            · simp [get_tag, ensureTl, mapSlot, htl', ctxInvAt, ctxInvAt, ctxBuilders, entityCtx,
                hnbs, hwb0, hrb0, hcb0, hwnl0, hrml0, hdisc0]
            · simp only [get_tag, ensureTl, mapSlot, htl', Bool.false_eq_true, if_false]
              rw [liveFrom_extend _ _ hlive]
              simp [liveFrom, applyEvent, liveOf, htl']
            · simp only [get_tag, ensureTl, mapSlot, htl', Bool.false_eq_true, if_false]
              rw [logOK_extend _ _ hlive hlog]
              simp [logOKfrom, applyEvent, sublistCount, liveOf, htl', hwnl0, hrml0, hdisc0]
        · rw [if_neg htag] at h
          injection h with h
          subst h
          exact stateInv_mk _ Context.in_object rfl
            ⟨rfl, hnbs, hwb0, hrb0, hcb0, hwnl0, hrml0, hdisc0⟩ hlive hlog
      case way =>
        obtain ⟨hwbs, hnb0, hrb0, hcb0, hrml0, hdisc0, hdisj⟩ := hctx
        by_cases hnd : name = "nd"
        · rw [if_pos hnd] at h
          injection h with h
          subst h
          by_cases htl : s.tl_live = true
          · have hwnlF : s.wnl_live = false := by
              rcases hdisj with h1 | h1
              · rw [htl] at h1; exact Bool.noConfusion h1
              · exact h1
            apply stateInv_mk _ Context.in_object (by simp)
            · simp [resetTl, ensureWnl, mapSlot, htl, hwnlF, ctxInvAt, ctxInvAt, ctxBuilders, entityCtx,
                hwbs, hnb0, hrb0, hcb0, hrml0, hdisc0]
            · simp only [resetTl, ensureWnl, mapSlot, htl, hwnlF, if_pos, if_true,
                Bool.false_eq_true, if_false, List.append_assoc, List.singleton_append]
              rw [liveFrom_extend _ _ hlive]
              simp [liveFrom, applyEvent, liveOf, htl, hwnlF]
            · simp only [resetTl, ensureWnl, mapSlot, htl, hwnlF, if_pos, if_true,
                Bool.false_eq_true, if_false, List.append_assoc, List.singleton_append]
              rw [logOK_extend _ _ hlive hlog]
              simp [logOKfrom, applyEvent, sublistCount, liveOf, htl, hwnlF, hrml0, hdisc0]
          · have htl' : s.tl_live = false := by revert htl; cases s.tl_live <;> simp
            by_cases hwnl : s.wnl_live = true
            · apply stateInv_mk _ Context.in_object (by simp)
              · simp [resetTl, ensureWnl, mapSlot, htl', hwnl, ctxInvAt, ctxInvAt, ctxBuilders, entityCtx,
                  hwbs, hnb0, hrb0, hcb0, hrml0, hdisc0]
              · simpa [resetTl, ensureWnl, mapSlot, htl', hwnl, liveOf] using hlive
              · simpa [resetTl, ensureWnl, mapSlot, htl', hwnl] using hlog
            · have hwnl' : s.wnl_live = false := by revert hwnl; cases s.wnl_live <;> simp
              apply stateInv_mk _ Context.in_object (by simp)
              · simp [resetTl, ensureWnl, mapSlot, htl', hwnl', ctxInvAt, ctxInvAt, ctxBuilders, entityCtx,
                  hwbs, hnb0, hrb0, hcb0, hrml0, hdisc0]
              · simp only [resetTl, ensureWnl, mapSlot, htl', hwnl', Bool.false_eq_true, if_false]
                rw [liveFrom_extend _ _ hlive]
                simp [liveFrom, applyEvent, liveOf, htl', hwnl']
              · simp only [resetTl, ensureWnl, mapSlot, htl', hwnl', Bool.false_eq_true, if_false]
                rw [logOK_extend _ _ hlive hlog]
                simp [logOKfrom, applyEvent, sublistCount, liveOf, htl', hwnl', hrml0, hdisc0]
        · rw [if_neg hnd] at h
          by_cases htag : name = "tag"
          · rw [if_pos htag] at h
            injection h with h
            subst h
            by_cases hwnl : s.wnl_live = true
            · have htlF : s.tl_live = false := by
                rcases hdisj with h1 | h1
                · exact h1
                · rw [hwnl] at h1; exact Bool.noConfusion h1
              apply stateInv_mk _ Context.in_object (by simp)
              · simp [get_tag, ensureTl, resetWnl, mapSlot, hwnl, htlF, ctxInvAt, ctxInvAt, ctxBuilders, entityCtx,
                  hwbs, hnb0, hrb0, hcb0, hrml0, hdisc0]
              · simp only [get_tag, ensureTl, resetWnl, mapSlot, hwnl, htlF, if_pos, if_true,
                  Bool.false_eq_true, if_false, List.append_assoc, List.singleton_append]
                rw [liveFrom_extend _ _ hlive]
                simp [liveFrom, applyEvent, liveOf, hwnl, htlF]
              · simp only [get_tag, ensureTl, resetWnl, mapSlot, hwnl, htlF, if_pos, if_true,
                  Bool.false_eq_true, if_false, List.append_assoc, List.singleton_append]
                rw [logOK_extend _ _ hlive hlog]
                simp [logOKfrom, applyEvent, sublistCount, liveOf, hwnl, htlF, hrml0, hdisc0]
            · have hwnl' : s.wnl_live = false := by revert hwnl; cases s.wnl_live <;> simp
              by_cases htl : s.tl_live = true
              · apply stateInv_mk _ Context.in_object (by simp)
                · simp [get_tag, ensureTl, resetWnl, mapSlot, hwnl', htl, ctxInvAt, ctxInvAt, ctxBuilders, entityCtx,
                    hwbs, hnb0, hrb0, hcb0, hrml0, hdisc0]
                · simpa [get_tag, ensureTl, resetWnl, mapSlot, hwnl', htl, liveOf] using hlive
                · simpa [get_tag, ensureTl, resetWnl, mapSlot, hwnl', htl] using hlog
              · have htl' : s.tl_live = false := by revert htl; cases s.tl_live <;> simp
                apply stateInv_mk _ Context.in_object (by simp)
                · simp [get_tag, ensureTl, resetWnl, mapSlot, hwnl', htl', ctxInvAt, ctxInvAt, ctxBuilders, entityCtx,
                    hwbs, hnb0, hrb0, hcb0, hrml0, hdisc0]
                · simp only [get_tag, ensureTl, resetWnl, mapSlot, hwnl', htl',
                    Bool.false_eq_true, if_false]
                  rw [liveFrom_extend _ _ hlive]
                  simp [liveFrom, applyEvent, liveOf, hwnl', htl']
                · simp only [get_tag, ensureTl, resetWnl, mapSlot, hwnl', htl',
                    Bool.false_eq_true, if_false]
                  rw [logOK_extend _ _ hlive hlog]
                  simp [logOKfrom, applyEvent, sublistCount, liveOf, hwnl', htl', hrml0, hdisc0]
          · rw [if_neg htag] at h
            injection h with h
            subst h
            exact stateInv_mk _ Context.in_object rfl
              ⟨rfl, hwbs, hnb0, hrb0, hcb0, hrml0, hdisc0, hdisj⟩ hlive hlog
      case relation =>
        obtain ⟨hrbs, hnb0, hwb0, hcb0, hwnl0, hdisc0, hdisj⟩ := hctx
        by_cases hmem : name = "member"
        · rw [if_pos hmem] at h
          split at h
          · exact Except.noConfusion h
          · split at h
            · exact Except.noConfusion h
            · injection h with h
              subst h
              by_cases htl : s.tl_live = true
              · have hrmlF : s.rml_live = false := by
                  rcases hdisj with h1 | h1
                  · rw [htl] at h1; exact Bool.noConfusion h1
                  · exact h1
                apply stateInv_mk _ Context.in_object (by simp)
                · simp [resetTl, ensureRml, mapSlot, htl, hrmlF, ctxInvAt, ctxInvAt, ctxBuilders, entityCtx,
                    hrbs, hnb0, hwb0, hcb0, hwnl0, hdisc0]
                · simp only [resetTl, ensureRml, mapSlot, htl, hrmlF, if_pos, if_true,
                    Bool.false_eq_true, if_false, List.append_assoc, List.singleton_append]
                  rw [liveFrom_extend _ _ hlive]
                  simp [liveFrom, applyEvent, liveOf, htl, hrmlF]
                · simp only [resetTl, ensureRml, mapSlot, htl, hrmlF, if_pos, if_true,
                    Bool.false_eq_true, if_false, List.append_assoc, List.singleton_append]
                  rw [logOK_extend _ _ hlive hlog]
                  simp [logOKfrom, applyEvent, sublistCount, liveOf, htl, hrmlF, hwnl0, hdisc0]
              · have htl' : s.tl_live = false := by revert htl; cases s.tl_live <;> simp
                by_cases hrml : s.rml_live = true
                · apply stateInv_mk _ Context.in_object (by simp)
                  · simp [resetTl, ensureRml, mapSlot, htl', hrml, ctxInvAt, ctxInvAt, ctxBuilders, entityCtx,
                      hrbs, hnb0, hwb0, hcb0, hwnl0, hdisc0]
                  · simpa [resetTl, ensureRml, mapSlot, htl', hrml, liveOf] using hlive
                  · simpa [resetTl, ensureRml, mapSlot, htl', hrml] using hlog
                · have hrml' : s.rml_live = false := by revert hrml; cases s.rml_live <;> simp
                  apply stateInv_mk _ Context.in_object (by simp)
                  · simp [resetTl, ensureRml, mapSlot, htl', hrml', ctxInvAt, ctxInvAt, ctxBuilders, entityCtx,
                      hrbs, hnb0, hwb0, hcb0, hwnl0, hdisc0]
                  · simp only [resetTl, ensureRml, mapSlot, htl', hrml',
                      Bool.false_eq_true, if_false]
                    rw [liveFrom_extend _ _ hlive]
                    simp [liveFrom, applyEvent, liveOf, htl', hrml']
                  · simp only [resetTl, ensureRml, mapSlot, htl', hrml',
                      Bool.false_eq_true, if_false]
                    rw [logOK_extend _ _ hlive hlog]
                    simp [logOKfrom, applyEvent, sublistCount, liveOf, htl', hrml', hwnl0, hdisc0]
        · rw [if_neg hmem] at h
          by_cases htag : name = "tag"
          · rw [if_pos htag] at h
            injection h with h
            subst h
            by_cases hrml : s.rml_live = true
            · have htlF : s.tl_live = false := by
                rcases hdisj with h1 | h1
                · exact h1
                · rw [hrml] at h1; exact Bool.noConfusion h1
              apply stateInv_mk _ Context.in_object (by simp)
              · simp [get_tag, ensureTl, resetRml, mapSlot, hrml, htlF, ctxInvAt, ctxInvAt, ctxBuilders, entityCtx,
                  hrbs, hnb0, hwb0, hcb0, hwnl0, hdisc0]
              · simp only [get_tag, ensureTl, resetRml, mapSlot, hrml, htlF, if_pos, if_true,
                  Bool.false_eq_true, if_false, List.append_assoc, List.singleton_append]
                rw [liveFrom_extend _ _ hlive]
                simp [liveFrom, applyEvent, liveOf, hrml, htlF]
              · simp only [get_tag, ensureTl, resetRml, mapSlot, hrml, htlF, if_pos, if_true,
                  Bool.false_eq_true, if_false, List.append_assoc, List.singleton_append]
                rw [logOK_extend _ _ hlive hlog]
                simp [logOKfrom, applyEvent, sublistCount, liveOf, hrml, htlF, hwnl0, hdisc0]
            · have hrml' : s.rml_live = false := by revert hrml; cases s.rml_live <;> simp
              by_cases htl : s.tl_live = true
              · apply stateInv_mk _ Context.in_object (by simp)
                · simp [get_tag, ensureTl, resetRml, mapSlot, hrml', htl, ctxInvAt, ctxInvAt, ctxBuilders, entityCtx,
                    hrbs, hnb0, hwb0, hcb0, hwnl0, hdisc0]
                · simpa [get_tag, ensureTl, resetRml, mapSlot, hrml', htl, liveOf] using hlive
                · simpa [get_tag, ensureTl, resetRml, mapSlot, hrml', htl] using hlog
              · have htl' : s.tl_live = false := by revert htl; cases s.tl_live <;> simp
                apply stateInv_mk _ Context.in_object (by simp)
                · simp [get_tag, ensureTl, resetRml, mapSlot, hrml', htl', ctxInvAt, ctxInvAt, ctxBuilders, entityCtx,
                    hrbs, hnb0, hwb0, hcb0, hwnl0, hdisc0]
                · simp only [get_tag, ensureTl, resetRml, mapSlot, hrml', htl',
                    Bool.false_eq_true, if_false]
                  rw [liveFrom_extend _ _ hlive]
                  simp [liveFrom, applyEvent, liveOf, hrml', htl']
                · simp only [get_tag, ensureTl, resetRml, mapSlot, hrml', htl',
                    Bool.false_eq_true, if_false]
                  rw [logOK_extend _ _ hlive hlog]
                  simp [logOKfrom, applyEvent, sublistCount, liveOf, hrml', htl', hwnl0, hdisc0]
          · rw [if_neg htag] at h
            injection h with h
            subst h
            exact stateInv_mk _ Context.in_object rfl
              ⟨rfl, hrbs, hnb0, hwb0, hcb0, hwnl0, hdisc0, hdisj⟩ hlive hlog
      case changeset =>
        obtain ⟨hcbs, hnb0, hwb0, hrb0, hwnl0, hrml0, hdisj⟩ := hctx
        by_cases hdsc : name = "discussion"
        · rw [if_pos hdsc] at h
          injection h with h
          subst h
          by_cases htl : s.tl_live = true
          · have hdiscF : s.disc_live = false := by
              rcases hdisj with h1 | h1
              · rw [htl] at h1; exact Bool.noConfusion h1
              · exact h1
            apply stateInv_mk _ Context.discussion (by simp)
            · simp [resetTl, ensureDisc, htl, hdiscF, ctxInvAt, ctxBuilders,
                hcbs, hnb0, hwb0, hrb0, hwnl0, hrml0]
            · simp only [resetTl, ensureDisc, htl, hdiscF, if_pos, if_true,
                Bool.false_eq_true, if_false, List.append_assoc, List.singleton_append]
              rw [liveFrom_extend _ _ hlive]
              simp [liveFrom, applyEvent, liveOf, htl, hdiscF]
            · simp only [resetTl, ensureDisc, htl, hdiscF, if_pos, if_true,
                Bool.false_eq_true, if_false, List.append_assoc, List.singleton_append]
              rw [logOK_extend _ _ hlive hlog]
              simp [logOKfrom, applyEvent, sublistCount, liveOf, htl, hdiscF, hwnl0, hrml0]
          · have htl' : s.tl_live = false := by revert htl; cases s.tl_live <;> simp
            by_cases hdisc : s.disc_live = true
            · apply stateInv_mk _ Context.discussion (by simp)
              · simp [resetTl, ensureDisc, htl', hdisc, ctxInvAt, ctxBuilders,
                  hcbs, hnb0, hwb0, hrb0, hwnl0, hrml0]
              · simpa [resetTl, ensureDisc, htl', hdisc, liveOf] using hlive
              · simpa [resetTl, ensureDisc, htl', hdisc] using hlog
            · have hdisc' : s.disc_live = false := by revert hdisc; cases s.disc_live <;> simp
              apply stateInv_mk _ Context.discussion (by simp)
              · simp [resetTl, ensureDisc, htl', hdisc', ctxInvAt, ctxBuilders,
                  hcbs, hnb0, hwb0, hrb0, hwnl0, hrml0]
              · simp only [resetTl, ensureDisc, htl', hdisc', Bool.false_eq_true, if_false]
                rw [liveFrom_extend _ _ hlive]
                simp [liveFrom, applyEvent, liveOf, htl', hdisc']
              · simp only [resetTl, ensureDisc, htl', hdisc', Bool.false_eq_true, if_false]
                rw [logOK_extend _ _ hlive hlog]
                simp [logOKfrom, applyEvent, sublistCount, liveOf, htl', hdisc', hwnl0, hrml0]
        · rw [if_neg hdsc] at h
          by_cases htag : name = "tag"
          · rw [if_pos htag] at h
            injection h with h
            subst h
            by_cases hdisc : s.disc_live = true
            · have htlF : s.tl_live = false := by
                rcases hdisj with h1 | h1
                · exact h1
                · rw [hdisc] at h1; exact Bool.noConfusion h1
              apply stateInv_mk _ Context.in_object (by simp)
              · simp [get_tag, ensureTl, resetDisc, mapSlot, hdisc, htlF, ctxInvAt, ctxInvAt, ctxBuilders, entityCtx,
                  hcbs, hnb0, hwb0, hrb0, hwnl0, hrml0]
              · simp only [get_tag, ensureTl, resetDisc, mapSlot, hdisc, htlF, if_pos, if_true,
                  Bool.false_eq_true, if_false, List.append_assoc, List.singleton_append]
                rw [liveFrom_extend _ _ hlive]
                simp [liveFrom, applyEvent, liveOf, hdisc, htlF]
              · simp only [get_tag, ensureTl, resetDisc, mapSlot, hdisc, htlF, if_pos, if_true,
                  Bool.false_eq_true, if_false, List.append_assoc, List.singleton_append]
                rw [logOK_extend _ _ hlive hlog]
                simp [logOKfrom, applyEvent, sublistCount, liveOf, hdisc, htlF, hwnl0, hrml0]
            · have hdisc' : s.disc_live = false := by revert hdisc; cases s.disc_live <;> simp
              by_cases htl : s.tl_live = true
              · apply stateInv_mk _ Context.in_object (by simp)
                · simp [get_tag, ensureTl, resetDisc, mapSlot, hdisc', htl, ctxInvAt, ctxInvAt, ctxBuilders, entityCtx,
                    hcbs, hnb0, hwb0, hrb0, hwnl0, hrml0]
                · simpa [get_tag, ensureTl, resetDisc, mapSlot, hdisc', htl, liveOf] using hlive
                · simpa [get_tag, ensureTl, resetDisc, mapSlot, hdisc', htl] using hlog
              · have htl' : s.tl_live = false := by revert htl; cases s.tl_live <;> simp
                apply stateInv_mk _ Context.in_object (by simp)
                · simp [get_tag, ensureTl, resetDisc, mapSlot, hdisc', htl', ctxInvAt, ctxInvAt, ctxBuilders, entityCtx,
                    hcbs, hnb0, hwb0, hrb0, hwnl0, hrml0]
                · simp only [get_tag, ensureTl, resetDisc, mapSlot, hdisc', htl',
                    Bool.false_eq_true, if_false]
                  rw [liveFrom_extend _ _ hlive]
                  simp [liveFrom, applyEvent, liveOf, hdisc', htl']
                · simp only [get_tag, ensureTl, resetDisc, mapSlot, hdisc', htl',
                    Bool.false_eq_true, if_false]
                  rw [logOK_extend _ _ hlive hlog]
                  simp [logOKfrom, applyEvent, sublistCount, liveOf, hdisc', htl', hwnl0, hrml0]
          · rw [if_neg htag] at h
            injection h with h
            subst h
            exact stateInv_mk _ Context.changeset rfl
              ⟨hcbs, hnb0, hwb0, hrb0, hwnl0, hrml0, hdisj⟩ hlive hlog
      case discussion =>
        obtain ⟨hcbs, hnb0, hwb0, hrb0, htl0, hwnl0, hrml0, hdisc1⟩ := hctx
        by_cases hcm : name = "comment"
        · rw [if_pos hcm] at h
          injection h with h
          subst h
          apply stateInv_mk _ Context.comment (by simp)
          · exact ⟨by simpa [add_comment] using hcbs, hnb0, hwb0, hrb0, htl0, hwnl0, hrml0, hdisc1⟩
          · simpa [add_comment, liveOf] using hlive
          · exact hlog
        · rw [if_neg hcm] at h
          injection h with h
          subst h
          exact stateInv_mk _ Context.discussion hcs
            ⟨hcbs, hnb0, hwb0, hrb0, htl0, hwnl0, hrml0, hdisc1⟩ hlive hlog
      case comment =>
        obtain ⟨hcbs, hnb0, hwb0, hrb0, htl0, hwnl0, hrml0, hdisc1⟩ := hctx
        by_cases ht : name = "text"
        · rw [if_pos ht] at h
          injection h with h
          subst h
          exact stateInv_mk _ Context.comment_text rfl
            ⟨hcbs, hnb0, hwb0, hrb0, htl0, hwnl0, hrml0, hdisc1⟩ hlive hlog
        · rw [if_neg ht] at h
          injection h with h
          subst h
          exact stateInv_mk _ Context.comment hcs
            ⟨hcbs, hnb0, hwb0, hrb0, htl0, hwnl0, hrml0, hdisc1⟩ hlive hlog
      case comment_text =>
        injection h with h
        subst h
        exact stateInv_mk _ Context.comment_text hcs hctx hlive hlog
      case ignored_node =>
        injection h with h
        subst h
        exact stateInv_mk _ Context.ignored_node hcs hctx hlive hlog
      case ignored_way =>
        injection h with h
        subst h
        exact stateInv_mk _ Context.ignored_way hcs hctx hlive hlog
      case ignored_relation =>
        injection h with h
        subst h
        exact stateInv_mk _ Context.ignored_relation hcs hctx hlive hlog
      case ignored_changeset =>
        injection h with h
        subst h
        exact stateInv_mk _ Context.ignored_changeset hcs hctx hlive hlog
      case in_object =>
        injection h with h
        subst h
        exact stateInv_mk _ Context.in_object hcs hctx hlive hlog
  | endEl name =>
      simp only [step] at h
      cases hcs : s.context <;> rw [hcs] at hctx <;> simp only [end_element, hcs] at h
      case root =>
        injection h with h
        subst h
        exact stateInv_mk _ Context.root hcs hctx hlive hlog
      case top =>
        obtain ⟨htl0, hwnl0, hrml0, hdisc0, hnb0, hwb0, hrb0, hcb0⟩ := hctx
        obtain ⟨hm1, hm2, hm3, hm4, hm5, hm6, hm7, hm8⟩ := mark_header_as_done_builders s
        by_cases hr : name = "osm" ∨ name = "osmChange"
        · rw [if_pos hr] at h
          injection h with h
          subst h
          apply stateInv_mk _ Context.root rfl
          · exact ⟨hm1.trans htl0, hm2.trans hwnl0, hm3.trans hrml0, hm4.trans hdisc0,
              hm5.trans hnb0, hm6.trans hwb0, hm7.trans hrb0, hm8.trans hcb0⟩
          · rw [mark_header_as_done_log]
            exact hlive.trans (mark_header_as_done_liveOf s).symm
          · rw [mark_header_as_done_log]; exact hlog
        · rw [if_neg hr] at h
          by_cases hd : name = "delete"
          · rw [if_pos hd] at h
            injection h with h
            subst h
            exact stateInv_mk _ Context.top rfl
              ⟨htl0, hwnl0, hrml0, hdisc0, hnb0, hwb0, hrb0, hcb0⟩ hlive hlog
          · rw [if_neg hd] at h
            injection h with h
            subst h
            exact stateInv_mk _ Context.top hcs
              ⟨htl0, hwnl0, hrml0, hdisc0, hnb0, hwb0, hrb0, hcb0⟩ hlive hlog
      case node =>
        obtain ⟨hnbs, hwb0, hrb0, hcb0, hwnl0, hrml0, hdisc0⟩ := hctx
        injection h with h
        subst h
        obtain ⟨ent, hent⟩ := Option.isSome_iff_exists.mp hnbs
        by_cases htl : s.tl_live = true
        · apply stateInv_mk _ Context.top (by simp)
          · simp [close_entity, getSlot, clearSlot, resetTl, htl, hent, ctxInvAt, ctxBuilders,
              hwb0, hrb0, hcb0, hwnl0, hrml0, hdisc0]
          · simp only [close_entity, getSlot, clearSlot, resetTl, htl, hent, if_pos, if_true,
              List.append_assoc, List.singleton_append]
            rw [liveFrom_extend _ _ hlive]
            simp [liveFrom, applyEvent, liveOf, htl, hent]
          · simp only [close_entity, getSlot, clearSlot, resetTl, htl, hent, if_pos, if_true,
              List.append_assoc, List.singleton_append]
            rw [logOK_extend _ _ hlive hlog]
            simp [logOKfrom, applyEvent, sublistCount, liveOf, htl, hwnl0, hrml0, hdisc0]
        · have htl' : s.tl_live = false := by revert htl; cases s.tl_live <;> simp
          apply stateInv_mk _ Context.top (by simp)
          · simp [close_entity, getSlot, clearSlot, resetTl, htl', hent, ctxInvAt, ctxBuilders,
              hwb0, hrb0, hcb0, hwnl0, hrml0, hdisc0]
          · simp only [close_entity, getSlot, clearSlot, resetTl, htl', hent,
              Bool.false_eq_true, if_false]
            rw [liveFrom_extend _ _ hlive]
            simp [liveFrom, applyEvent, liveOf, htl', hent]
          · simp only [close_entity, getSlot, clearSlot, resetTl, htl', hent,
              Bool.false_eq_true, if_false]
            rw [logOK_extend _ _ hlive hlog]
            simp [logOKfrom, applyEvent, sublistCount, liveOf, htl', hwnl0, hrml0, hdisc0]
      case way =>
        obtain ⟨hwbs, hnb0, hrb0, hcb0, hrml0, hdisc0, hdisj⟩ := hctx
        injection h with h
        subst h
        obtain ⟨ent, hent⟩ := Option.isSome_iff_exists.mp hwbs
        by_cases htl : s.tl_live = true
        · have hwnlF : s.wnl_live = false := by
            rcases hdisj with h1 | h1
            · rw [htl] at h1; exact Bool.noConfusion h1
            · exact h1
          apply stateInv_mk _ Context.top (by simp)
          · simp [close_entity, getSlot, clearSlot, resetTl, resetWnl, htl, hwnlF, hent,
              ctxInvAt, ctxBuilders, hnb0, hrb0, hcb0, hrml0, hdisc0]
          · simp only [close_entity, getSlot, clearSlot, resetTl, resetWnl, htl, hwnlF, if_pos,
              if_true, Bool.false_eq_true, if_false, hent, List.append_assoc, List.singleton_append]
            rw [liveFrom_extend _ _ hlive]
            simp [liveFrom, applyEvent, liveOf, htl, hwnlF, hent]
          · simp only [close_entity, getSlot, clearSlot, resetTl, resetWnl, htl, hwnlF, if_pos,
              if_true, Bool.false_eq_true, if_false, hent, List.append_assoc, List.singleton_append]
            rw [logOK_extend _ _ hlive hlog]
            simp [logOKfrom, applyEvent, sublistCount, liveOf, htl, hwnlF, hrml0, hdisc0]
        · have htl' : s.tl_live = false := by revert htl; cases s.tl_live <;> simp
          by_cases hwnl : s.wnl_live = true
          · apply stateInv_mk _ Context.top (by simp)
            · simp [close_entity, getSlot, clearSlot, resetTl, resetWnl, htl', hwnl, hent,
                ctxInvAt, ctxBuilders, hnb0, hrb0, hcb0, hrml0, hdisc0]
            · simp only [close_entity, getSlot, clearSlot, resetTl, resetWnl, htl', hwnl, if_pos,
                if_true, Bool.false_eq_true, if_false, hent, List.append_assoc, List.singleton_append]
              rw [liveFrom_extend _ _ hlive]
              simp [liveFrom, applyEvent, liveOf, htl', hwnl, hent]
            · simp only [close_entity, getSlot, clearSlot, resetTl, resetWnl, htl', hwnl, if_pos,
                if_true, Bool.false_eq_true, if_false, hent, List.append_assoc, List.singleton_append]
              rw [logOK_extend _ _ hlive hlog]
              simp [logOKfrom, applyEvent, sublistCount, liveOf, htl', hwnl, hrml0, hdisc0]
          · have hwnl' : s.wnl_live = false := by revert hwnl; cases s.wnl_live <;> simp
            apply stateInv_mk _ Context.top (by simp)
            · simp [close_entity, getSlot, clearSlot, resetTl, resetWnl, htl', hwnl', hent,
                ctxInvAt, ctxBuilders, hnb0, hrb0, hcb0, hrml0, hdisc0]
            · simp only [close_entity, getSlot, clearSlot, resetTl, resetWnl, htl', hwnl', hent,
                Bool.false_eq_true, if_false]
              rw [liveFrom_extend _ _ hlive]
              simp [liveFrom, applyEvent, liveOf, htl', hwnl', hent]
            · simp only [close_entity, getSlot, clearSlot, resetTl, resetWnl, htl', hwnl', hent,
                Bool.false_eq_true, if_false]
              rw [logOK_extend _ _ hlive hlog]
              simp [logOKfrom, applyEvent, sublistCount, liveOf, htl', hwnl', hrml0, hdisc0]
      case relation =>
        obtain ⟨hrbs, hnb0, hwb0, hcb0, hwnl0, hdisc0, hdisj⟩ := hctx
        injection h with h
        subst h
        obtain ⟨ent, hent⟩ := Option.isSome_iff_exists.mp hrbs
        by_cases htl : s.tl_live = true
        · have hrmlF : s.rml_live = false := by
            rcases hdisj with h1 | h1
            · rw [htl] at h1; exact Bool.noConfusion h1
            · exact h1
          apply stateInv_mk _ Context.top (by simp)
          · simp [close_entity, getSlot, clearSlot, resetTl, resetRml, htl, hrmlF, hent,
              ctxInvAt, ctxBuilders, hnb0, hwb0, hcb0, hwnl0, hdisc0]
          · simp only [close_entity, getSlot, clearSlot, resetTl, resetRml, htl, hrmlF, if_pos,
              if_true, Bool.false_eq_true, if_false, hent, List.append_assoc, List.singleton_append]
            rw [liveFrom_extend _ _ hlive]
            simp [liveFrom, applyEvent, liveOf, htl, hrmlF, hent]
          · simp only [close_entity, getSlot, clearSlot, resetTl, resetRml, htl, hrmlF, if_pos,
              if_true, Bool.false_eq_true, if_false, hent, List.append_assoc, List.singleton_append]
            rw [logOK_extend _ _ hlive hlog]
            simp [logOKfrom, applyEvent, sublistCount, liveOf, htl, hrmlF, hwnl0, hdisc0]
        · have htl' : s.tl_live = false := by revert htl; cases s.tl_live <;> simp
          by_cases hrml : s.rml_live = true
          · apply stateInv_mk _ Context.top (by simp)
            · simp [close_entity, getSlot, clearSlot, resetTl, resetRml, htl', hrml, hent,
                ctxInvAt, ctxBuilders, hnb0, hwb0, hcb0, hwnl0, hdisc0]
            · simp only [close_entity, getSlot, clearSlot, resetTl, resetRml, htl', hrml, if_pos,
                if_true, Bool.false_eq_true, if_false, hent, List.append_assoc, List.singleton_append]
              rw [liveFrom_extend _ _ hlive]
              simp [liveFrom, applyEvent, liveOf, htl', hrml, hent]
            · simp only [close_entity, getSlot, clearSlot, resetTl, resetRml, htl', hrml, if_pos,
                if_true, Bool.false_eq_true, if_false, hent, List.append_assoc, List.singleton_append]
              rw [logOK_extend _ _ hlive hlog]
              simp [logOKfrom, applyEvent, sublistCount, liveOf, htl', hrml, hwnl0, hdisc0]
          · have hrml' : s.rml_live = false := by revert hrml; cases s.rml_live <;> simp
            apply stateInv_mk _ Context.top (by simp)
            · simp [close_entity, getSlot, clearSlot, resetTl, resetRml, htl', hrml', hent,
                ctxInvAt, ctxBuilders, hnb0, hwb0, hcb0, hwnl0, hdisc0]
            · simp only [close_entity, getSlot, clearSlot, resetTl, resetRml, htl', hrml', hent,
                Bool.false_eq_true, if_false]
              rw [liveFrom_extend _ _ hlive]
              simp [liveFrom, applyEvent, liveOf, htl', hrml', hent]
            · simp only [close_entity, getSlot, clearSlot, resetTl, resetRml, htl', hrml', hent,
                Bool.false_eq_true, if_false]
              rw [logOK_extend _ _ hlive hlog]
              simp [logOKfrom, applyEvent, sublistCount, liveOf, htl', hrml', hwnl0, hdisc0]
      case changeset =>
        obtain ⟨hcbs, hnb0, hwb0, hrb0, hwnl0, hrml0, hdisj⟩ := hctx
        injection h with h
        subst h
        obtain ⟨ent, hent⟩ := Option.isSome_iff_exists.mp hcbs
        by_cases htl : s.tl_live = true
        · have hdiscF : s.disc_live = false := by
            rcases hdisj with h1 | h1
            · rw [htl] at h1; exact Bool.noConfusion h1
            · exact h1
          apply stateInv_mk _ Context.top (by simp)
          · simp [close_entity, getSlot, clearSlot, resetTl, resetDisc, htl, hdiscF, hent,
              ctxInvAt, ctxBuilders, hnb0, hwb0, hrb0, hwnl0, hrml0]
          · simp only [close_entity, getSlot, clearSlot, resetTl, resetDisc, htl, hdiscF, if_pos,
              if_true, Bool.false_eq_true, if_false, hent, List.append_assoc, List.singleton_append]
            rw [liveFrom_extend _ _ hlive]
            simp [liveFrom, applyEvent, liveOf, htl, hdiscF, hent]
          · simp only [close_entity, getSlot, clearSlot, resetTl, resetDisc, htl, hdiscF, if_pos,
              if_true, Bool.false_eq_true, if_false, hent, List.append_assoc, List.singleton_append]
            rw [logOK_extend _ _ hlive hlog]
            simp [logOKfrom, applyEvent, sublistCount, liveOf, htl, hdiscF, hwnl0, hrml0]
        · have htl' : s.tl_live = false := by revert htl; cases s.tl_live <;> simp
          by_cases hdisc : s.disc_live = true
          · apply stateInv_mk _ Context.top (by simp)
            · simp [close_entity, getSlot, clearSlot, resetTl, resetDisc, htl', hdisc, hent,
                ctxInvAt, ctxBuilders, hnb0, hwb0, hrb0, hwnl0, hrml0]
            · simp only [close_entity, getSlot, clearSlot, resetTl, resetDisc, htl', hdisc, if_pos,
                if_true, Bool.false_eq_true, if_false, hent, List.append_assoc, List.singleton_append]
              rw [liveFrom_extend _ _ hlive]
              simp [liveFrom, applyEvent, liveOf, htl', hdisc, hent]
            · simp only [close_entity, getSlot, clearSlot, resetTl, resetDisc, htl', hdisc, if_pos,
                if_true, Bool.false_eq_true, if_false, hent, List.append_assoc, List.singleton_append]
              rw [logOK_extend _ _ hlive hlog]
              simp [logOKfrom, applyEvent, sublistCount, liveOf, htl', hdisc, hwnl0, hrml0]
          · have hdisc' : s.disc_live = false := by revert hdisc; cases s.disc_live <;> simp
            apply stateInv_mk _ Context.top (by simp)
            · simp [close_entity, getSlot, clearSlot, resetTl, resetDisc, htl', hdisc', hent,
                ctxInvAt, ctxBuilders, hnb0, hwb0, hrb0, hwnl0, hrml0]
            · simp only [close_entity, getSlot, clearSlot, resetTl, resetDisc, htl', hdisc', hent,
                Bool.false_eq_true, if_false]
              rw [liveFrom_extend _ _ hlive]
              simp [liveFrom, applyEvent, liveOf, htl', hdisc', hent]
            · simp only [close_entity, getSlot, clearSlot, resetTl, resetDisc, htl', hdisc', hent,
                Bool.false_eq_true, if_false]
              rw [logOK_extend _ _ hlive hlog]
              simp [logOKfrom, applyEvent, sublistCount, liveOf, htl', hdisc', hwnl0, hrml0]
      case discussion =>
        obtain ⟨hcbs, hnb0, hwb0, hrb0, htl0, hwnl0, hrml0, hdisc1⟩ := hctx
        injection h with h
        subst h
        exact stateInv_mk _ Context.changeset rfl
          ⟨hcbs, hnb0, hwb0, hrb0, hwnl0, hrml0, Or.inl htl0⟩ hlive hlog
      case comment =>
        obtain ⟨hcbs, hnb0, hwb0, hrb0, htl0, hwnl0, hrml0, hdisc1⟩ := hctx
        injection h with h
        subst h
        exact stateInv_mk _ Context.discussion rfl
          ⟨hcbs, hnb0, hwb0, hrb0, htl0, hwnl0, hrml0, hdisc1⟩ hlive hlog
      case comment_text =>
        obtain ⟨hcbs, hnb0, hwb0, hrb0, htl0, hwnl0, hrml0, hdisc1⟩ := hctx
        injection h with h
        subst h
        apply stateInv_mk _ Context.comment (by simp [add_comment_text])
        · exact ⟨by simpa [add_comment_text] using hcbs, hnb0, hwb0, hrb0,
            htl0, hwnl0, hrml0, hdisc1⟩
        · simpa [add_comment_text, liveOf] using hlive
        · exact hlog
      case in_object =>
        obtain ⟨hec, hcb⟩ := hctx
        injection h with h
        subst h
        cases hlc : s.last_context <;> rw [hlc] at hec hcb <;>
          first
            | exact Bool.noConfusion hec
            | exact stateInv_mk _ Context.node (by simp [hlc]) hcb hlive hlog
            | exact stateInv_mk _ Context.way (by simp [hlc]) hcb hlive hlog
            | exact stateInv_mk _ Context.relation (by simp [hlc]) hcb hlive hlog
            | exact stateInv_mk _ Context.changeset (by simp [hlc]) hcb hlive hlog
      case ignored_node =>
        obtain ⟨htl0, hwnl0, hrml0, hdisc0, hnb0, hwb0, hrb0, hcb0⟩ := hctx
        by_cases hn : name = "node"
        · rw [if_pos hn] at h
          injection h with h
          subst h
          exact stateInv_mk _ Context.top rfl
            ⟨htl0, hwnl0, hrml0, hdisc0, hnb0, hwb0, hrb0, hcb0⟩ hlive hlog
        · rw [if_neg hn] at h
          injection h with h
          subst h
          exact stateInv_mk _ Context.ignored_node hcs
            ⟨htl0, hwnl0, hrml0, hdisc0, hnb0, hwb0, hrb0, hcb0⟩ hlive hlog
      case ignored_way =>
        obtain ⟨htl0, hwnl0, hrml0, hdisc0, hnb0, hwb0, hrb0, hcb0⟩ := hctx
        by_cases hn : name = "way"
        · rw [if_pos hn] at h
          injection h with h
          subst h
          exact stateInv_mk _ Context.top rfl
            ⟨htl0, hwnl0, hrml0, hdisc0, hnb0, hwb0, hrb0, hcb0⟩ hlive hlog
        · rw [if_neg hn] at h
          injection h with h
          subst h
          exact stateInv_mk _ Context.ignored_way hcs
            ⟨htl0, hwnl0, hrml0, hdisc0, hnb0, hwb0, hrb0, hcb0⟩ hlive hlog
      case ignored_relation =>
        obtain ⟨htl0, hwnl0, hrml0, hdisc0, hnb0, hwb0, hrb0, hcb0⟩ := hctx
        by_cases hn : name = "relation"
        · rw [if_pos hn] at h
          injection h with h
          subst h
          exact stateInv_mk _ Context.top rfl
            ⟨htl0, hwnl0, hrml0, hdisc0, hnb0, hwb0, hrb0, hcb0⟩ hlive hlog
        · rw [if_neg hn] at h
          injection h with h
          subst h
          exact stateInv_mk _ Context.ignored_relation hcs
            ⟨htl0, hwnl0, hrml0, hdisc0, hnb0, hwb0, hrb0, hcb0⟩ hlive hlog
      case ignored_changeset =>
        obtain ⟨htl0, hwnl0, hrml0, hdisc0, hnb0, hwb0, hrb0, hcb0⟩ := hctx
        by_cases hn : name = "changeset"
        · rw [if_pos hn] at h
          injection h with h
          subst h
          exact stateInv_mk _ Context.top rfl
            ⟨htl0, hwnl0, hrml0, hdisc0, hnb0, hwb0, hrb0, hcb0⟩ hlive hlog
        · rw [if_neg hn] at h
          injection h with h
          subst h
          exact stateInv_mk _ Context.ignored_changeset hcs
            ⟨htl0, hwnl0, hrml0, hdisc0, hnb0, hwb0, hrb0, hcb0⟩ hlive hlog

theorem init_state_stateInv : stateInv init_state :=
  ⟨⟨rfl, rfl, rfl, rfl, rfl, rfl, rfl, rfl⟩, rfl, rfl⟩

theorem foldlM_stateInv (rt : EntityBits) :
    ∀ (l : List Event) (s0 s1 : ParserState), stateInv s0 →
      l.foldlM (step rt) s0 = Except.ok s1 → stateInv s1 := by
  intro l
  induction l with
  | nil =>
      intro s0 s1 h0 h1
      injection h1 with h1
      subst h1
      exact h0
  | cons e rest ih =>
      intro s0 s1 h0 h1
      rw [List.foldlM_cons] at h1
      cases hstep : step rt s0 e with
      | error err =>
          rw [hstep] at h1
          exact Except.noConfusion h1
      | ok s2 =>
          rw [hstep] at h1
          exact ih s2 s1 (step_preserves_stateInv rt s0 s2 e h0 hstep) h1

theorem runP_stateInv (rt : EntityBits) (evs : List Event) (s : ParserState)
    (h : runP rt evs = Except.ok s) : stateInv s :=
  foldlM_stateInv rt evs init_state s init_state_stateInv h

theorem ctxBuilders_count (c : Context) (s : ParserState) (h : ctxBuilders c s) :
    sublistCount (liveOf s) ≤ 1 := by
  cases c
  case root | top | ignored_node | ignored_way | ignored_relation | ignored_changeset =>
    obtain ⟨h1, h2, h3, h4, -⟩ := h
    simp [sublistCount, liveOf, h1, h2, h3, h4]
  case node =>
    obtain ⟨-, -, -, -, h5, h6, h7⟩ := h
    cases htl : s.tl_live <;> simp [sublistCount, liveOf, htl, h5, h6, h7]
  case way =>
    obtain ⟨-, -, -, -, h5, h6, h7⟩ := h
    rcases h7 with h7 | h7
    · cases hw : s.wnl_live <;> simp [sublistCount, liveOf, h7, h5, h6, hw]
    · cases ht : s.tl_live <;> simp [sublistCount, liveOf, h7, h5, h6, ht]
  case relation =>
    obtain ⟨-, -, -, -, h5, h6, h7⟩ := h
    rcases h7 with h7 | h7
    · cases hw : s.rml_live <;> simp [sublistCount, liveOf, h7, h5, h6, hw]
    · cases ht : s.tl_live <;> simp [sublistCount, liveOf, h7, h5, h6, ht]
  case changeset =>
    obtain ⟨-, -, -, -, h5, h6, h7⟩ := h
    rcases h7 with h7 | h7
    · cases hw : s.disc_live <;> simp [sublistCount, liveOf, h7, h5, h6, hw]
    · cases ht : s.tl_live <;> simp [sublistCount, liveOf, h7, h5, h6, ht]
  case discussion | comment | comment_text =>
    obtain ⟨-, -, -, -, h5, h6, h7, h8⟩ := h
    simp [sublistCount, liveOf, h5, h6, h7, h8]
  case in_object => exact h.elim

theorem stateInv_count (s : ParserState) (hs : stateInv s) :
    sublistCount (liveOf s) ≤ 1 := by
  obtain ⟨hctx, -, -⟩ := hs
  unfold ctxInvAt at hctx
  cases hcc : s.context <;> rw [hcc] at hctx
  case in_object => exact ctxBuilders_count s.last_context s hctx.2
  all_goals exact ctxBuilders_count _ s hctx

theorem option_mem_toList (o : Option Entity) (x : Entity) : x ∈ o.toList ↔ o = some x := by
  cases o <;> simp [Option.toList, eq_comm]

theorem mem_entsOf (s : ParserState) (e : Entity) :
    e ∈ entsOf s ↔ e ∈ s.output ∨ s.node_builder = some e ∨ s.way_builder = some e ∨
      s.relation_builder = some e ∨ s.changeset_builder = some e := by
  simp [entsOf, option_mem_toList, or_assoc]

theorem membersInv_resetTl (s : ParserState) (hm : membersInv s) : membersInv (resetTl s) := by
  unfold resetTl; split
  · exact hm
  · exact hm

theorem membersInv_resetWnl (s : ParserState) (hm : membersInv s) : membersInv (resetWnl s) := by
  unfold resetWnl; split
  · exact hm
  · exact hm

theorem membersInv_resetRml (s : ParserState) (hm : membersInv s) : membersInv (resetRml s) := by
  unfold resetRml; split
  · exact hm
  · exact hm

theorem membersInv_resetDisc (s : ParserState) (hm : membersInv s) : membersInv (resetDisc s) := by
  unfold resetDisc; split
  · exact hm
  · exact hm

theorem membersInv_ensureTl (s : ParserState) (hm : membersInv s) : membersInv (ensureTl s) := by
  unfold ensureTl; split
  · exact hm
  · exact hm

theorem membersInv_ensureWnl (s : ParserState) (hm : membersInv s) : membersInv (ensureWnl s) := by
  unfold ensureWnl; split
  · exact hm
  · exact hm

theorem membersInv_ensureRml (s : ParserState) (hm : membersInv s) : membersInv (ensureRml s) := by
  unfold ensureRml; split
  · exact hm
  · exact hm

theorem membersInv_ensureDisc (s : ParserState) (hm : membersInv s) : membersInv (ensureDisc s) := by
  unfold ensureDisc; split
  · exact hm
  · exact hm

theorem membersInv_mark (s : ParserState) (hm : membersInv s) :
    membersInv (mark_header_as_done s) := by
  unfold mark_header_as_done; split
  · exact hm
  · exact hm

theorem membersInv_mapSlot (s : ParserState) (k : item_type) (f : Entity → Entity)
    (hm : membersInv s) (hf : ∀ ent, noFullMembers ent → noFullMembers (f ent)) :
    membersInv (mapSlot s k f) := by
  cases k
  case undefined => exact hm
  case node =>
    intro e he
    rw [mem_entsOf] at he
    simp only [mapSlot] at he
    rcases he with ho | h1 | h2 | h3 | h4
    · exact hm e ((mem_entsOf s e).mpr (Or.inl ho))
    · obtain ⟨x, hx, rfl⟩ := Option.map_eq_some'.mp h1
      exact hf x (hm x ((mem_entsOf s x).mpr (Or.inr (Or.inl hx))))
    · exact hm e ((mem_entsOf s e).mpr (Or.inr (Or.inr (Or.inl h2))))
    · exact hm e ((mem_entsOf s e).mpr (Or.inr (Or.inr (Or.inr (Or.inl h3)))))
    · exact hm e ((mem_entsOf s e).mpr (Or.inr (Or.inr (Or.inr (Or.inr h4)))))
  case way =>
    intro e he
    rw [mem_entsOf] at he
    simp only [mapSlot] at he
    rcases he with ho | h1 | h2 | h3 | h4
    · exact hm e ((mem_entsOf s e).mpr (Or.inl ho))
    · exact hm e ((mem_entsOf s e).mpr (Or.inr (Or.inl h1)))
    · obtain ⟨x, hx, rfl⟩ := Option.map_eq_some'.mp h2
      exact hf x (hm x ((mem_entsOf s x).mpr (Or.inr (Or.inr (Or.inl hx)))))
    · exact hm e ((mem_entsOf s e).mpr (Or.inr (Or.inr (Or.inr (Or.inl h3)))))
    · exact hm e ((mem_entsOf s e).mpr (Or.inr (Or.inr (Or.inr (Or.inr h4)))))
  case relation =>
    intro e he
    rw [mem_entsOf] at he
    simp only [mapSlot] at he
    rcases he with ho | h1 | h2 | h3 | h4
    · exact hm e ((mem_entsOf s e).mpr (Or.inl ho))
    · exact hm e ((mem_entsOf s e).mpr (Or.inr (Or.inl h1)))
    · exact hm e ((mem_entsOf s e).mpr (Or.inr (Or.inr (Or.inl h2))))
    · obtain ⟨x, hx, rfl⟩ := Option.map_eq_some'.mp h3
      exact hf x (hm x ((mem_entsOf s x).mpr (Or.inr (Or.inr (Or.inr (Or.inl hx))))))
    · exact hm e ((mem_entsOf s e).mpr (Or.inr (Or.inr (Or.inr (Or.inr h4)))))
  case changeset =>
    intro e he
    rw [mem_entsOf] at he
    simp only [mapSlot] at he
    rcases he with ho | h1 | h2 | h3 | h4
    · exact hm e ((mem_entsOf s e).mpr (Or.inl ho))
    · exact hm e ((mem_entsOf s e).mpr (Or.inr (Or.inl h1)))
    · exact hm e ((mem_entsOf s e).mpr (Or.inr (Or.inr (Or.inl h2))))
    · exact hm e ((mem_entsOf s e).mpr (Or.inr (Or.inr (Or.inr (Or.inl h3)))))
    · obtain ⟨x, hx, rfl⟩ := Option.map_eq_some'.mp h4
      exact hf x (hm x ((mem_entsOf s x).mpr (Or.inr (Or.inr (Or.inr (Or.inr hx))))))

theorem membersInv_mapSlotSet (s : ParserState) (k : item_type) (ent : Entity)
    (hm : membersInv s) (hent : noFullMembers ent) : membersInv (mapSlotSet s k ent) := by
  cases k
  case undefined => exact hm
  case node =>
    intro e he
    rw [mem_entsOf] at he
    simp only [mapSlotSet] at he
    rcases he with ho | h1 | h2 | h3 | h4
    · exact hm e ((mem_entsOf s e).mpr (Or.inl ho))
    · rw [← Option.some.inj h1]; exact hent
    · exact hm e ((mem_entsOf s e).mpr (Or.inr (Or.inr (Or.inl h2))))
    · exact hm e ((mem_entsOf s e).mpr (Or.inr (Or.inr (Or.inr (Or.inl h3)))))
    · exact hm e ((mem_entsOf s e).mpr (Or.inr (Or.inr (Or.inr (Or.inr h4)))))
  case way =>
    intro e he
    rw [mem_entsOf] at he
    simp only [mapSlotSet] at he
    rcases he with ho | h1 | h2 | h3 | h4
    · exact hm e ((mem_entsOf s e).mpr (Or.inl ho))
    · exact hm e ((mem_entsOf s e).mpr (Or.inr (Or.inl h1)))
    · rw [← Option.some.inj h2]; exact hent
    · exact hm e ((mem_entsOf s e).mpr (Or.inr (Or.inr (Or.inr (Or.inl h3)))))
    · exact hm e ((mem_entsOf s e).mpr (Or.inr (Or.inr (Or.inr (Or.inr h4)))))
  case relation =>
    intro e he
    rw [mem_entsOf] at he
    simp only [mapSlotSet] at he
    rcases he with ho | h1 | h2 | h3 | h4
    · exact hm e ((mem_entsOf s e).mpr (Or.inl ho))
    · exact hm e ((mem_entsOf s e).mpr (Or.inr (Or.inl h1)))
    · exact hm e ((mem_entsOf s e).mpr (Or.inr (Or.inr (Or.inl h2))))
    · rw [← Option.some.inj h3]; exact hent
    · exact hm e ((mem_entsOf s e).mpr (Or.inr (Or.inr (Or.inr (Or.inr h4)))))
  case changeset =>
    intro e he
    rw [mem_entsOf] at he
    simp only [mapSlotSet] at he
    rcases he with ho | h1 | h2 | h3 | h4
    · exact hm e ((mem_entsOf s e).mpr (Or.inl ho))
    · exact hm e ((mem_entsOf s e).mpr (Or.inr (Or.inl h1)))
    · exact hm e ((mem_entsOf s e).mpr (Or.inr (Or.inr (Or.inl h2))))
    · exact hm e ((mem_entsOf s e).mpr (Or.inr (Or.inr (Or.inr (Or.inl h3)))))
    · rw [← Option.some.inj h4]; exact hent

theorem membersInv_newEntityBuilder (s : ParserState) (k : item_type) (ent : Entity)
    (hm : membersInv s) (hent : noFullMembers ent) : membersInv (newEntityBuilder s k ent) :=
  membersInv_mapSlotSet s k ent hm hent

theorem membersInv_get_tag (p : item_type) (s : ParserState) (attrs : List (String × String))
    (hm : membersInv s) : membersInv (get_tag p s attrs) :=
  membersInv_mapSlot _ p _ (membersInv_ensureTl s hm) (fun _ hent => hent)

theorem membersInv_close_entity (s : ParserState) (k : item_type) (hm : membersInv s) :
    membersInv (close_entity s k) := by
  cases k
  case undefined => exact hm
  case node =>
    unfold close_entity
    cases hslot : getSlot s item_type.node
    · exact hm
    case some ent =>
      have hent : s.node_builder = some ent := hslot
      intro e he
      rw [mem_entsOf] at he
      simp only [clearSlot] at he
      rcases he with ho | h1 | h2 | h3 | h4
      · rcases List.mem_append.mp ho with ho | ho
        · exact hm e ((mem_entsOf s e).mpr (Or.inl ho))
        · have he2 : e = ent := by simpa using ho
          subst he2
          exact hm e ((mem_entsOf s e).mpr (Or.inr (Or.inl hent)))
      · exact Option.noConfusion h1
      · exact hm e ((mem_entsOf s e).mpr (Or.inr (Or.inr (Or.inl h2))))
      · exact hm e ((mem_entsOf s e).mpr (Or.inr (Or.inr (Or.inr (Or.inl h3)))))
      · exact hm e ((mem_entsOf s e).mpr (Or.inr (Or.inr (Or.inr (Or.inr h4)))))
  case way =>
    unfold close_entity
    cases hslot : getSlot s item_type.way
    · exact hm
    case some ent =>
      have hent : s.way_builder = some ent := hslot
      intro e he
      rw [mem_entsOf] at he
      simp only [clearSlot] at he
      rcases he with ho | h1 | h2 | h3 | h4
      · rcases List.mem_append.mp ho with ho | ho
        · exact hm e ((mem_entsOf s e).mpr (Or.inl ho))
        · have he2 : e = ent := by simpa using ho
          subst he2
          exact hm e ((mem_entsOf s e).mpr (Or.inr (Or.inr (Or.inl hent))))
      · exact hm e ((mem_entsOf s e).mpr (Or.inr (Or.inl h1)))
      · exact Option.noConfusion h2
      · exact hm e ((mem_entsOf s e).mpr (Or.inr (Or.inr (Or.inr (Or.inl h3)))))
      · exact hm e ((mem_entsOf s e).mpr (Or.inr (Or.inr (Or.inr (Or.inr h4)))))
  case relation =>
    unfold close_entity
    cases hslot : getSlot s item_type.relation
    · exact hm
    case some ent =>
      have hent : s.relation_builder = some ent := hslot
      intro e he
      rw [mem_entsOf] at he
      simp only [clearSlot] at he
      rcases he with ho | h1 | h2 | h3 | h4
      · rcases List.mem_append.mp ho with ho | ho
        · exact hm e ((mem_entsOf s e).mpr (Or.inl ho))
        · have he2 : e = ent := by simpa using ho
          subst he2
          exact hm e ((mem_entsOf s e).mpr (Or.inr (Or.inr (Or.inr (Or.inl hent)))))
      · exact hm e ((mem_entsOf s e).mpr (Or.inr (Or.inl h1)))
      · exact hm e ((mem_entsOf s e).mpr (Or.inr (Or.inr (Or.inl h2))))
      · exact Option.noConfusion h3
      · exact hm e ((mem_entsOf s e).mpr (Or.inr (Or.inr (Or.inr (Or.inr h4)))))
  case changeset =>
    unfold close_entity
    cases hslot : getSlot s item_type.changeset
    · exact hm
    case some ent =>
      have hent : s.changeset_builder = some ent := hslot
      intro e he
      rw [mem_entsOf] at he
      simp only [clearSlot] at he
      rcases he with ho | h1 | h2 | h3 | h4
      · rcases List.mem_append.mp ho with ho | ho
        · exact hm e ((mem_entsOf s e).mpr (Or.inl ho))
        · have he2 : e = ent := by simpa using ho
          subst he2
          exact hm e ((mem_entsOf s e).mpr (Or.inr (Or.inr (Or.inr (Or.inr hent)))))
      · exact hm e ((mem_entsOf s e).mpr (Or.inr (Or.inl h1)))
      · exact hm e ((mem_entsOf s e).mpr (Or.inr (Or.inr (Or.inl h2))))
      · exact hm e ((mem_entsOf s e).mpr (Or.inr (Or.inr (Or.inr (Or.inl h3)))))
      · exact Option.noConfusion h4

theorem membersInv_add_comment (s : ParserState) (c : Comment) (hm : membersInv s) :
    membersInv (add_comment s c) :=
  membersInv_mapSlot s item_type.changeset _ hm (fun _ hent => hent)

theorem membersInv_add_comment_text (s : ParserState) (t : String) (hm : membersInv s) :
    membersInv (add_comment_text s t) :=
  membersInv_mapSlot s item_type.changeset _ hm (fun _ hent => hent)

theorem obj_scan_members :
    ∀ (l : List (String × String)) (acc : ObjScan),
      (l.foldl obj_scan_step acc).obj.members = acc.obj.members := by
  intro l
  induction l with
  | nil => intro acc; rfl
  | cons a rest ih =>
      intro acc
      rw [List.foldl_cons, ih]
      unfold obj_scan_step
      split_ifs <;> try rfl
      show (set_attribute acc.obj a.1 a.2).members = acc.obj.members
      unfold set_attribute
      split_ifs <;> rfl

theorem init_object_members (d : Bool) (obj0 : Entity) (attrs : List (String × String)) :
    (init_object d obj0 attrs).1.members = obj0.members := by
  unfold init_object
  dsimp only
  have key : ∀ obj1 : Entity, obj1.members = obj0.members →
      (if (attrs.foldl obj_scan_step { obj := obj1 }).location.isSet = true ∧
          (attrs.foldl obj_scan_step { obj := obj1 }).obj.kind = item_type.node
       then { (attrs.foldl obj_scan_step { obj := obj1 }).obj with
              location := (attrs.foldl obj_scan_step { obj := obj1 }).location }
       else (attrs.foldl obj_scan_step { obj := obj1 }).obj).members = obj0.members := by
    intro obj1 h
    split
    · exact (obj_scan_members attrs _).trans h
    · exact (obj_scan_members attrs _).trans h
  cases d
  · exact key obj0 rfl
  · exact key { obj0 with visible := false } rfl

theorem init_object_noFullMembers (d : Bool) (attrs : List (String × String))
    (k : item_type) : noFullMembers (init_object d { kind := k } attrs).1 := by
  intro m hmem
  rw [init_object_members] at hmem
  simp at hmem

theorem cs_scan_members :
    ∀ (l : List (String × String)) (acc : CsScan),
      (l.foldl (fun (acc : CsScan) a =>
        if a.1 = "min_lon" then { acc with min := { acc.min with lon := some (atof_helper '.' a.2) } }
        else if a.1 = "min_lat" then { acc with min := { acc.min with lat := some (atof_helper '.' a.2) } }
        else if a.1 = "max_lon" then { acc with max := { acc.max with lon := some (atof_helper '.' a.2) } }
        else if a.1 = "max_lat" then { acc with max := { acc.max with lat := some (atof_helper '.' a.2) } }
        else if a.1 = "user" then { acc with user := a.2 }
        else { acc with obj := set_attribute acc.obj a.1 a.2 }) acc).obj.members = acc.obj.members := by
  intro l
  induction l with
  | nil => intro acc; rfl
  | cons a rest ih =>
      intro acc
      rw [List.foldl_cons, ih]
      split_ifs <;> try rfl
      show (set_attribute acc.obj a.1 a.2).members = acc.obj.members
      unfold set_attribute
      split_ifs <;> rfl

theorem init_changeset_members (cs0 : Entity) (attrs : List (String × String)) :
    (init_changeset cs0 attrs).members = cs0.members := by
  unfold init_changeset
  dsimp only
  rw [cs_scan_members]

theorem init_changeset_noFullMembers (attrs : List (String × String)) (k : item_type) :
    noFullMembers (init_changeset { kind := k } attrs) := by
  intro m hmem
  rw [init_changeset_members] at hmem
  simp at hmem

theorem add_member_none_noFullMembers (ent : Entity) (t : item_type) (r : Int) (ro : String)
    (hent : noFullMembers ent) :
    noFullMembers { ent with members := add_member ent.members t r ro } := by
  intro m hmem
  simp only [add_member] at hmem
  rcases List.mem_append.mp hmem with hmem | hmem
  · exact hent m hmem
  · rw [List.mem_singleton] at hmem
    subst hmem
    exact ⟨rfl, rfl⟩

theorem init_object_user_noFullMembers (d : Bool) (attrs : List (String × String))
    (k : item_type) (u : String) :
    noFullMembers { (init_object d { kind := k } attrs).1 with user := u } := by
  intro m hmem
  have h2 : m ∈ (init_object d { kind := k } attrs).1.members := hmem
  exact init_object_noFullMembers d attrs k m h2

theorem membersInv_spawn (s : ParserState) (k : item_type) (ent : Entity) (c : Context)
    (hm : membersInv s) (hent : noFullMembers ent) :
    membersInv { newEntityBuilder s k ent with context := c } := by
  intro e he
  exact membersInv_mapSlotSet s k ent hm hent e he

theorem step_preserves_membersInv (rt : EntityBits) (s s' : ParserState) (e : Event)
    (hm : membersInv s) (h : step rt s e = Except.ok s') : membersInv s' := by
  cases e with
  | chars t =>
      simp only [step] at h
      injection h with h
      subst h
      unfold characters
      split
      · exact hm
      · exact hm
  | startEl name attrs =>
      simp only [step] at h
      cases hcs : s.context <;> simp only [start_element, hcs] at h
      case root =>
        split at h
        · split at h
          · exact Except.noConfusion h
          · split at h
            · exact Except.noConfusion h
            · injection h with h
              subst h
              exact hm
        · exact Except.noConfusion h
      case top =>
        split at h
        · split at h
          · injection h with h
            subst h
            exact membersInv_spawn _ item_type.node _ Context.node (membersInv_mark s hm)
              (init_object_user_noFullMembers _ attrs item_type.node _)
          · injection h with h
            subst h
            exact membersInv_mark s hm
        · split at h
          · split at h
            · injection h with h
              subst h
              exact membersInv_spawn _ item_type.way _ Context.way (membersInv_mark s hm)
                (init_object_user_noFullMembers _ attrs item_type.way _)
            · injection h with h
              subst h
              exact membersInv_mark s hm
          · split at h
            · split at h
              · injection h with h
                subst h
                exact membersInv_spawn _ item_type.relation _ Context.relation
                  (membersInv_mark s hm)
                  (init_object_user_noFullMembers _ attrs item_type.relation _)
              · injection h with h
                subst h
                exact membersInv_mark s hm
            · split at h
              · split at h
                · injection h with h
                  subst h
                  exact membersInv_spawn _ item_type.changeset _ Context.changeset
                    (membersInv_mark s hm)
                    (init_changeset_noFullMembers attrs item_type.changeset)
                · injection h with h
                  subst h
                  exact membersInv_mark s hm
              · split at h
                · injection h with h
                  subst h
                  exact hm
                · split at h
                  · injection h with h
                    subst h
                    exact hm
                  · injection h with h
                    subst h
                    exact hm
      case node =>
        split at h
        · injection h with h
          subst h
          exact membersInv_get_tag item_type.node _ attrs hm
        · injection h with h
          subst h
          exact hm
      case way =>
        split at h
        · injection h with h
          subst h
          exact membersInv_mapSlot _ item_type.way _
            (membersInv_ensureWnl _ (membersInv_resetTl _ hm)) (fun _ hh => hh)
        · split at h
          · injection h with h
            subst h
            exact membersInv_get_tag item_type.way _ attrs (membersInv_resetWnl _ hm)
          · injection h with h
            subst h
            exact hm
      case relation =>
        split at h
        · split at h
          · exact Except.noConfusion h
          · split at h
            · exact Except.noConfusion h
            · injection h with h
              subst h
              exact membersInv_mapSlot _ item_type.relation _
                (membersInv_ensureRml _ (membersInv_resetTl _ hm))
                (fun ent hh => add_member_none_noFullMembers ent _ _ _ hh)
        · split at h
          · injection h with h
            subst h
            exact membersInv_get_tag item_type.relation _ attrs (membersInv_resetRml _ hm)
          · injection h with h
            subst h
            exact hm
      case changeset =>
        split at h
        · injection h with h
          subst h
          exact membersInv_ensureDisc _ (membersInv_resetTl _ hm)
        · split at h
          · injection h with h
            subst h
            exact membersInv_get_tag item_type.changeset _ attrs (membersInv_resetDisc _ hm)
          · injection h with h
            subst h
            exact hm
      case discussion =>
        split at h
        · injection h with h
          subst h
          exact membersInv_add_comment _ _ hm
        · injection h with h
          subst h
          exact hm
      case comment =>
        split at h
        · injection h with h
          subst h
          exact hm
        · injection h with h
          subst h
          exact hm
      all_goals injection h with h
      all_goals subst h
      all_goals exact hm
  | endEl name =>
      simp only [step] at h
      cases hcs : s.context <;> simp only [end_element, hcs] at h
      case root =>
        injection h with h
        subst h
        exact hm
      case top =>
        split at h
        · injection h with h
          subst h
          exact membersInv_mark s hm
        · split at h
          · injection h with h
            subst h
            exact hm
          · injection h with h
            subst h
            exact hm
      case node =>
        injection h with h
        subst h
        exact membersInv_close_entity _ item_type.node (membersInv_resetTl _ hm)
      case way =>
        injection h with h
        subst h
        exact membersInv_close_entity _ item_type.way
          (membersInv_resetWnl _ (membersInv_resetTl _ hm))
      case relation =>
        injection h with h
        subst h
        exact membersInv_close_entity _ item_type.relation
          (membersInv_resetRml _ (membersInv_resetTl _ hm))
      case changeset =>
        injection h with h
        subst h
        exact membersInv_close_entity _ item_type.changeset
          (membersInv_resetDisc _ (membersInv_resetTl _ hm))
      case comment_text =>
        injection h with h
        subst h
        exact membersInv_add_comment_text _ _ hm
      case ignored_node =>
        split at h
        · injection h with h
          subst h
          exact hm
        · injection h with h
          subst h
          exact hm
      case ignored_way =>
        split at h
        · injection h with h
          subst h
          exact hm
        · injection h with h
          subst h
          exact hm
      case ignored_relation =>
        split at h
        · injection h with h
          subst h
          exact hm
        · injection h with h
          subst h
          exact hm
      case ignored_changeset =>
        split at h
        · injection h with h
          subst h
          exact hm
        · injection h with h
          subst h
          exact hm
      all_goals injection h with h
      all_goals subst h
      all_goals exact hm

theorem init_state_membersInv : membersInv init_state := by
  intro e he
  simp [entsOf, init_state] at he

theorem foldlM_membersInv (rt : EntityBits) :
    ∀ (l : List Event) (s0 s1 : ParserState), membersInv s0 →
      l.foldlM (step rt) s0 = Except.ok s1 → membersInv s1 := by
  intro l
  induction l with
  | nil =>
      intro s0 s1 h0 h1
      injection h1 with h1
      subst h1
      exact h0
  | cons e rest ih =>
      intro s0 s1 h0 h1
      rw [List.foldlM_cons] at h1
      cases hstep : step rt s0 e with
      | error err =>
          rw [hstep] at h1
          exact Except.noConfusion h1
      | ok s2 =>
          rw [hstep] at h1
          exact ih s2 s1 (step_preserves_membersInv rt s0 s2 e h0 hstep) h1

theorem runP_membersInv (rt : EntityBits) (evs : List Event) (s : ParserState)
    (h : runP rt evs = Except.ok s) : membersInv s :=
  foldlM_membersInv rt evs init_state s init_state_membersInv h
/-- C7: after any successful run of the parser, at most one sublist
builder (tag list, way-node list, relation-member list or changeset
discussion) is live, and the whole builder lifetime log is
well-formed: after every prefix of the log at most one sublist builder is
live (so a sublist builder is always finalized before one of a different
kind is created), and whenever an entity builder is finalized no sublist
builder is live any more (all sublists are finalized before their entity
builder).  Since this holds for ALL event sequences it holds for every
prefix of a run, i.e. at every point during a parse. -/
theorem C7_sublist_discipline (rt : EntityBits) (evs : List Event) (s : ParserState)
    (h : runP rt evs = Except.ok s) :
    sublistCount (liveOf s) ≤ 1 ∧ logOKfrom {} s.log = true :=
  ⟨stateInv_count s (runP_stateInv rt evs s h), (runP_stateInv rt evs s h).2.2⟩

theorem C7_sublist_discipline_witness :
    runP allBits
      [Event.startEl "osm" [("version", "0.6")],
       Event.startEl "way" [("id", "7")],
       Event.startEl "nd" [("ref", "5")],
       Event.endEl "nd",
       Event.startEl "tag" [("k", "highway"), ("v", "x")],
       Event.endEl "tag",
       Event.endEl "way"] = Except.ok waySample ∧
    (sublistCount (liveOf waySample) ≤ 1 ∧ logOKfrom {} waySample.log = true) :=
  ⟨rfl, C7_sublist_discipline allBits
    [Event.startEl "osm" [("version", "0.6")],
     Event.startEl "way" [("id", "7")],
     Event.startEl "nd" [("ref", "5")],
     Event.endEl "nd",
     Event.startEl "tag" [("k", "highway"), ("v", "x")],
     Event.endEl "tag",
     Event.endEl "way"] waySample rfl⟩

/-- C9: every relation member record held or emitted by any successful run
of the parser has `has_full_member = false` and carries no embedded
full-member item: the parser always appends members through `add_member`
with the `full_member` argument left at its default `none`. -/
theorem C9_no_full_members (rt : EntityBits) (evs : List Event) (s : ParserState)
    (h : runP rt evs = Except.ok s) :
    ∀ e ∈ entsOf s, ∀ m ∈ e.members,
      m.member.has_full_member = false ∧ m.embedded = none :=
  runP_membersInv rt evs s h

theorem C9_no_full_members_witness :
    runP allBits
      [Event.startEl "osm" [("version", "0.6")],
       Event.startEl "relation" [("id", "9")],
       Event.startEl "member" [("type", "node"), ("ref", "5"), ("role", "stop")],
       Event.endEl "member",
       Event.endEl "relation"] = Except.ok relationSample ∧
    (∀ e ∈ entsOf relationSample, ∀ m ∈ e.members,
      m.member.has_full_member = false ∧ m.embedded = none) :=
  ⟨rfl, C9_no_full_members allBits
    [Event.startEl "osm" [("version", "0.6")],
     Event.startEl "relation" [("id", "9")],
     Event.startEl "member" [("type", "node"), ("ref", "5"), ("role", "stop")],
     Event.endEl "member",
     Event.endEl "relation"] relationSample rfl⟩

theorem C3_ignored_states_witness :
    is_ignored (Context.ignored_way) = true ∧
    step allBits { init_state with context := Context.ignored_way } (Event.endEl "way") =
      Except.ok { init_state with context := Context.top } :=
  ⟨rfl, (C3_ignored_states allBits { init_state with context := Context.ignored_way } rfl).2.2⟩

end OsmiumXml
